import Mathlib

/-!
# Copy-on-write base class (`COWBase<T>`) and its consumer `TextBox`

A shallow embedding of `src/TestCowBaseClass/COWBase.h` and
`src/TestCowBaseClass/TestCowBaseClass.cpp`.

* The free store is a list of slots indexed by allocation identity.  A slot
  holds the control block of a `std::shared_ptr` allocation (payload and strong
  count) or `none` once the allocation has been released.  `std::make_shared`
  appends a slot, so a released identity is never handed out again.
* A `std::shared_ptr<T>` is `Option Nat`: `none` is the empty handle, `some a`
  refers to allocation `a`.
* The methods of `COWBase<T>` are functions on a heap and the member `m_ptr`.
* A system of objects is a heap together with a list of cells; each method is
  lifted to "cell number `i` of the system".  A call on a cell that does not
  exist (never created, or destroyed) has no meaning in C++; the lifted
  operations leave the system unchanged there.
* The payload assignment `*m_ptr = *old` is a copy of the value, as it is for
  the implicitly defined assignment of `TextBoxImpl`.
-/

namespace CowBase

/-! ## The free store and `std::shared_ptr` -/

/-- Control block of one `std::make_shared<T>` allocation: the payload and the
strong reference count. -/
structure Block (T : Type) where
  value : T
  strong : Nat
deriving DecidableEq, Repr

/-- The free store: slot `a` is `some b` while allocation `a` is alive and
`none` after it has been released. -/
abbrev Heap (T : Type) := List (Option (Block T))

/-- A `std::shared_ptr<T>`: `none` is the empty handle. -/
abbrev SharedPtr := Option Nat

/-- The live control block of allocation `a`, if there is one. -/
def blockAt {T : Type} (h : Heap T) (a : Nat) : Option (Block T) :=
  match h[a]? with
  | some (some b) => some b
  | _ => none

/-- The member `std::shared_ptr::use_count()`: `0` for the empty handle, the
strong count of the control block otherwise. -/
def sp_use_count {T : Type} (h : Heap T) (p : SharedPtr) : Nat :=
  match p with
  | none => 0
  | some a =>
    match blockAt h a with
    | some b => b.strong
    | none => 0

/-- The member `std::shared_ptr::get()`: the raw pointer, `none` for `nullptr`. -/
def sp_get (p : SharedPtr) : Option Nat := p

/-- Reading `*p`: the payload the handle refers to. -/
def sp_deref {T : Type} (h : Heap T) (p : SharedPtr) : Option T :=
  match p with
  | none => none
  | some a => (blockAt h a).map Block.value

/-- Writing `*p = v`: replaces the payload, the strong count stays. -/
def sp_store {T : Type} (h : Heap T) (p : SharedPtr) (v : T) : Heap T :=
  match p with
  | none => h
  | some a =>
    match blockAt h a with
    | some b => h.set a (some { b with value := v })
    | none => h

/-- Copy construction of a `std::shared_ptr`: the new handle refers to the same
allocation and the strong count goes up by one. -/
def sp_copy {T : Type} (h : Heap T) (p : SharedPtr) : Heap T × SharedPtr :=
  match p with
  | none => (h, none)
  | some a =>
    match blockAt h a with
    | some b => (h.set a (some { b with strong := b.strong + 1 }), some a)
    | none => (h, some a)

/-- A handle gives up its reference (destructor, or the old value of an
assigned handle): the strong count goes down by one and the allocation is
released when it reaches zero. -/
def sp_release {T : Type} (h : Heap T) (p : SharedPtr) : Heap T :=
  match p with
  | none => h
  | some a =>
    match blockAt h a with
    | some b =>
      if b.strong ≤ 1 then h.set a none
      else h.set a (some { b with strong := b.strong - 1 })
    | none => h

/-- The call `std::make_shared<T>()`: a new allocation holding a
value-initialised `T`, with strong count `1`. -/
def make_shared {T : Type} [Inhabited T] (h : Heap T) : Heap T × SharedPtr :=
  (h ++ [some { value := default, strong := 1 }], some h.length)

/-- Move assignment `dst = std::move(src)` of a temporary: `dst` takes over the
reference of `src` and gives up the one it held. -/
def sp_move_assign {T : Type} (h : Heap T) (dst src : SharedPtr) : Heap T × SharedPtr :=
  (sp_release h dst, src)

/-! ## `COWBase<T>` -/

namespace COWBase

/-- `void construct() { m_ptr = std::make_shared<T>(); }` -/
def construct {T : Type} [Inhabited T] (h : Heap T) (m_ptr : SharedPtr) : Heap T × SharedPtr :=
  let r := make_shared h
  sp_move_assign r.1 m_ptr r.2

/-- `long use_count() const { return m_ptr.use_count(); }` -/
def use_count {T : Type} (h : Heap T) (m_ptr : SharedPtr) : Nat :=
  sp_use_count h m_ptr

/-- `T* ptr() { return m_ptr.get(); }` (and its `const` overload). -/
def ptr (m_ptr : SharedPtr) : Option Nat :=
  sp_get m_ptr

/-- The body of `clone_if_needed`:
```
if (m_ptr.use_count() > 1) {
    std::shared_ptr<T> old = m_ptr;
    construct();
    *m_ptr = *old;
}   // old goes out of scope here
```
-/
def clone_if_needed {T : Type} [Inhabited T] (h : Heap T) (m_ptr : SharedPtr) :
    Heap T × SharedPtr :=
  if sp_use_count h m_ptr > 1 then
    let c := sp_copy h m_ptr
    let old := c.2
    let k := construct c.1 m_ptr
    let h3 :=
      match sp_deref k.1 old with
      | some v => sp_store k.1 k.2 v
      | none => k.1
    (sp_release h3 old, k.2)
  else (h, m_ptr)

/-- The clone path of `clone_if_needed`, statement by statement: the heap and
`m_ptr` after the first `k` of its five steps,
1. `std::shared_ptr<T> old = m_ptr;`
2. `std::make_shared<T>()` (the right-hand side inside `construct()`),
3. `m_ptr = ` that temporary (the assignment inside `construct()`),
4. `*m_ptr = *old;`
5. `old` goes out of scope. -/
def clone_steps {T : Type} [Inhabited T] (h : Heap T) (m_ptr : SharedPtr) (k : Nat) :
    Heap T × SharedPtr :=
  let c := sp_copy h m_ptr
  let old := c.2
  let r := make_shared c.1
  let a := sp_move_assign r.1 m_ptr r.2
  let h4 :=
    match sp_deref a.1 old with
    | some v => sp_store a.1 a.2 v
    | none => a.1
  match k with
  | 0 => (h, m_ptr)
  | 1 => (c.1, m_ptr)
  | 2 => (r.1, m_ptr)
  | 3 => a
  | 4 => (h4, a.2)
  | _ => (sp_release h4 old, a.2)

end COWBase

/-! ## Systems of objects -/

/-- One object deriving from `COWBase<T>`: `gone` once destroyed, otherwise the
value of its member `m_ptr`. -/
inductive Cell where
  | gone
  | obj (m_ptr : SharedPtr)
deriving DecidableEq, Repr

/-- A heap and the objects that refer into it. -/
structure Sys (T : Type) where
  heap : Heap T
  cells : List Cell
deriving DecidableEq, Repr

namespace Sys

variable {T : Type}

/-- The system with no objects and nothing allocated. -/
def empty : Sys T := { heap := [], cells := [] }

/-- The member `m_ptr` of object `i`, when the object exists. -/
def m_ptr (s : Sys T) (i : Nat) : Option SharedPtr :=
  match s.cells[i]? with
  | some (Cell.obj p) => some p
  | _ => none

/-- `ptr()` on object `i`: `none` is the null pointer. -/
def ptr (s : Sys T) (i : Nat) : Option Nat :=
  match s.m_ptr i with
  | some p => COWBase.ptr p
  | none => none

/-- `use_count()` on object `i`. -/
def use_count (s : Sys T) (i : Nat) : Nat :=
  match s.m_ptr i with
  | some p => COWBase.use_count s.heap p
  | none => 0

/-- The payload read through `ptr()` of object `i`. -/
def read (s : Sys T) (i : Nat) : Option T :=
  match s.m_ptr i with
  | some p => sp_deref s.heap (COWBase.ptr p)
  | none => none

/-- A new object whose `COWBase` part is default-constructed (empty handle). -/
def newCell (s : Sys T) : Sys T :=
  { s with cells := s.cells ++ [Cell.obj none] }

/-- `construct()` on object `i`. -/
def construct [Inhabited T] (s : Sys T) (i : Nat) : Sys T :=
  match s.m_ptr i with
  | some p =>
    let r := COWBase.construct s.heap p
    { heap := r.1, cells := s.cells.set i (Cell.obj r.2) }
  | none => s

/-- `clone_if_needed()` on object `i`. -/
def clone_if_needed [Inhabited T] (s : Sys T) (i : Nat) : Sys T :=
  match s.m_ptr i with
  | some p =>
    let r := COWBase.clone_if_needed s.heap p
    { heap := r.1, cells := s.cells.set i (Cell.obj r.2) }
  | none => s

/-- A write through the mutable `ptr()` of object `i`: the payload becomes
`f` of what it was. -/
def write (s : Sys T) (i : Nat) (f : T → T) : Sys T :=
  match s.m_ptr i with
  | some p =>
    match sp_deref s.heap (COWBase.ptr p) with
    | some v => { s with heap := sp_store s.heap (COWBase.ptr p) (f v) }
    | none => s
  | none => s

/-- The implicit copy constructor: a new object whose `m_ptr` is a copy of the
`m_ptr` of object `i`. -/
def copy (s : Sys T) (i : Nat) : Sys T :=
  match s.m_ptr i with
  | some p =>
    let r := sp_copy s.heap p
    { heap := r.1, cells := s.cells ++ [Cell.obj r.2] }
  | none => s

/-- The implicit destructor of object `i`: its `m_ptr` gives up its reference. -/
def destroy (s : Sys T) (i : Nat) : Sys T :=
  match s.m_ptr i with
  | some p => { heap := sp_release s.heap p, cells := s.cells.set i Cell.gone }
  | none => s

/-- The implicit copy assignment `objects[i] = objects[j]`: the handle of `j`
is copied (its count goes up), then `i` gives up the reference it held. -/
def assign (s : Sys T) (i j : Nat) : Sys T :=
  match s.m_ptr i, s.m_ptr j with
  | some p, some q =>
    let c := sp_copy s.heap q
    { heap := sp_release c.1 p, cells := s.cells.set i (Cell.obj c.2) }
  | _, _ => s

/-- The number of live objects whose `m_ptr` refers to allocation `a`. -/
def holders (s : Sys T) (a : Nat) : Nat :=
  s.cells.count (Cell.obj (some a))

/-- The reference counts are exact: the strong count of every allocation is the
number of live objects bound to it (and nothing is bound to a released one). -/
def Inv (s : Sys T) : Prop :=
  ∀ a, s.holders a = sp_use_count s.heap (some a)

/-- The operations a derived class and its users perform on objects. -/
inductive Op (T : Type) where
  | newCell
  | construct (i : Nat)
  | clone_if_needed (i : Nat)
  | write (i : Nat) (f : T → T)
  | copy (i : Nat)
  | assign (i j : Nat)
  | destroy (i : Nat)

/-- One operation. -/
def step [Inhabited T] (s : Sys T) : Op T → Sys T
  | Op.newCell => s.newCell
  | Op.construct i => s.construct i
  | Op.clone_if_needed i => s.clone_if_needed i
  | Op.write i f => s.write i f
  | Op.copy i => s.copy i
  | Op.assign i j => s.assign i j
  | Op.destroy i => s.destroy i

/-- The system reached by a sequence of operations from the empty system. -/
def run [Inhabited T] (ops : List (Op T)) : Sys T :=
  ops.foldl step Sys.empty

/-- Whether an operation ends the life of the binding of object `i` from outside
`COWBase`: the object is destroyed, or another object is assigned over it. -/
def Op.ends (i : Nat) : Op T → Bool
  | Op.destroy k => k == i
  | Op.assign k _ => k == i
  | _ => false

/-- A call of `ptr()` on object `i` as a step of the system: the result and the
system after the call.  The body only evaluates `m_ptr.get()`, which writes
nothing. -/
def call_ptr (s : Sys T) (i : Nat) : Option Nat × Sys T :=
  (s.ptr i, s)

/-- A call of `use_count()` on object `i` as a step of the system: the result
and the system after the call.  The body only evaluates `m_ptr.use_count()`,
which writes nothing. -/
def call_use_count (s : Sys T) (i : Nat) : Nat × Sys T :=
  (s.use_count i, s)

end Sys

/-! ## The consumer type `TextBox` -/

/-- `struct TextBoxImpl { std::string m_Title; int m_Color; };` -/
structure TextBoxImpl where
  m_Title : String
  m_Color : Int
deriving DecidableEq, Repr

/-- Value-initialisation of `TextBoxImpl`, as done by `std::make_shared`:
the empty string and `0`. -/
instance : Inhabited TextBoxImpl := ⟨{ m_Title := "", m_Color := 0 }⟩

namespace TextBox

/-- `TextBox() { construct(); }`: the new object is the last cell. -/
def new (s : Sys TextBoxImpl) : Sys TextBoxImpl :=
  s.newCell.construct s.cells.length

/-- `TextBox(const std::string& title, int color)`: the new object is the last
cell. -/
def create (s : Sys TextBoxImpl) (title : String) (color : Int) : Sys TextBoxImpl :=
  let i := s.cells.length
  let s1 := s.newCell.construct i
  let s2 := s1.write i (fun v => { v with m_Title := title })
  s2.write i (fun v => { v with m_Color := color })

/-- `int GetColor() const { return ptr()->m_Color; }` -/
def GetColor (s : Sys TextBoxImpl) (i : Nat) : Option Int :=
  (s.read i).map TextBoxImpl.m_Color

/-- `const std::string& GetTitle() const { return ptr()->m_Title; }` -/
def GetTitle (s : Sys TextBoxImpl) (i : Nat) : Option String :=
  (s.read i).map TextBoxImpl.m_Title

/-- `void SetColor(int color) { clone_if_needed(); ptr()->m_Color = color; }` -/
def SetColor (s : Sys TextBoxImpl) (i : Nat) (color : Int) : Sys TextBoxImpl :=
  (s.clone_if_needed i).write i (fun v => { v with m_Color := color })

/-- `void SetTitle(const std::string& title) { clone_if_needed(); ptr()->m_Title = title; }` -/
def SetTitle (s : Sys TextBoxImpl) (i : Nat) (title : String) : Sys TextBoxImpl :=
  (s.clone_if_needed i).write i (fun v => { v with m_Title := title })

/-- What `Display()` prints for object `i`: use count, title, colour. -/
def Display (s : Sys TextBoxImpl) (i : Nat) : Option (Nat × String × Int) :=
  (s.read i).map (fun v => (s.use_count i, v.m_Title, v.m_Color))

/-- The operations a program performs on `TextBox` objects. -/
inductive Op where
  | new
  | create (title : String) (color : Int)
  | copy (i : Nat)
  | assign (i j : Nat)
  | setColor (i : Nat) (color : Int)
  | setTitle (i : Nat) (title : String)
  | destroy (i : Nat)
deriving DecidableEq, Repr

/-- One operation of a program. -/
def step (s : Sys TextBoxImpl) : Op → Sys TextBoxImpl
  | Op.new => TextBox.new s
  | Op.create t c => TextBox.create s t c
  | Op.copy i => s.copy i
  | Op.assign i j => s.assign i j
  | Op.setColor i c => SetColor s i c
  | Op.setTitle i t => SetTitle s i t
  | Op.destroy i => s.destroy i

/-- The system a program builds, starting with no objects. -/
def run (ops : List Op) : Sys TextBoxImpl :=
  ops.foldl step Sys.empty

/-- The system after the first statement of `main`: `TextBox a("Hello", 1);`. -/
def demoA : Sys TextBoxImpl :=
  run [Op.create "Hello" 1]

/-- The system after `TextBox a("Hello", 1); TextBox b = a;`: object 0 is `a`,
object 1 is `b`. -/
def demoAB : Sys TextBoxImpl :=
  run [Op.create "Hello" 1, Op.copy 0]

/-- What the four `Display()` calls of `main` print, as (use count, title,
colour): `a.Display()` after construction, `b.Display()` after the copy, after
`b.SetColor(2)` and after `b.SetTitle("world")`. -/
def mainDisplays : List (Option (Nat × String × Int)) :=
  let s1 := create Sys.empty "Hello" 1
  let s2 := s1.copy 0
  let s3 := SetColor s2 1 2
  let s4 := SetTitle s3 1 "world"
  [Display s1 0, Display s2 1, Display s3 1, Display s4 1]

end TextBox

/-! ## Slots of the free store -/

section HeapLemmas

variable {T : Type}

theorem blockAt_lt {h : Heap T} {a : Nat} {b : Block T} (hb : blockAt h a = some b) :
    a < h.length := by
  by_contra hlt
  have : h[a]? = none := List.getElem?_eq_none (by omega)
  simp [blockAt, this] at hb

theorem blockAt_length (h : Heap T) : blockAt h h.length = none := by
  simp [blockAt]

theorem blockAt_set (h : Heap T) (a : Nat) (x : Option (Block T)) (y : Nat)
    (ha : a < h.length) :
    blockAt (h.set a x) y = if y = a then x else blockAt h y := by
  by_cases hy : y = a
  · subst hy
    simp only [blockAt, if_true]
    rw [List.getElem?_set_self ha]
    cases x <;> rfl
  · simp only [blockAt, if_neg hy]
    rw [List.getElem?_set_ne (fun e => hy e.symm)]

theorem blockAt_append (h : Heap T) (x : Option (Block T)) (y : Nat) :
    blockAt (h ++ [x]) y = if y = h.length then x else blockAt h y := by
  by_cases hy : y = h.length
  · subst hy
    simp only [blockAt, if_true]
    rw [List.getElem?_append_right (le_refl _)]
    cases x <;> simp
  · simp only [blockAt, if_neg hy]
    by_cases hlt : y < h.length
    · rw [List.getElem?_append_left hlt]
    · have h1 : (h ++ [x])[y]? = none :=
        List.getElem?_eq_none (by simp; omega)
      have h2 : h[y]? = none := List.getElem?_eq_none (by omega)
      rw [h1, h2]

theorem blockAt_store (h : Heap T) (a : Nat) (v : T) (y : Nat) :
    blockAt (sp_store h (some a) v) y =
      if y = a then (blockAt h a).map (fun b => { b with value := v }) else blockAt h y := by
  unfold sp_store
  cases hb : blockAt h a with
  | none => by_cases hy : y = a <;> simp [hy, hb]
  | some b => simp [hb, blockAt_set _ _ _ _ (blockAt_lt hb)]

theorem blockAt_copy (h : Heap T) (a : Nat) (y : Nat) :
    blockAt (sp_copy h (some a)).1 y =
      if y = a then (blockAt h a).map (fun b => { b with strong := b.strong + 1 })
      else blockAt h y := by
  unfold sp_copy
  cases hb : blockAt h a with
  | none => by_cases hy : y = a <;> simp [hy, hb]
  | some b => simp [hb, blockAt_set _ _ _ _ (blockAt_lt hb)]

theorem blockAt_release (h : Heap T) (a : Nat) (y : Nat) :
    blockAt (sp_release h (some a)) y =
      if y = a then
        (blockAt h a).bind
          (fun b => if b.strong ≤ 1 then none else some { b with strong := b.strong - 1 })
      else blockAt h y := by
  unfold sp_release
  cases hb : blockAt h a with
  | none => by_cases hy : y = a <;> simp [hy, hb]
  | some b =>
    by_cases h1 : b.strong ≤ 1 <;> simp [hb, h1, blockAt_set _ _ _ _ (blockAt_lt hb)]

theorem length_store (h : Heap T) (p : SharedPtr) (v : T) :
    (sp_store h p v).length = h.length := by
  unfold sp_store
  cases p with
  | none => rfl
  | some a => cases hb : blockAt h a <;> simp [hb]

theorem length_copy (h : Heap T) (p : SharedPtr) : (sp_copy h p).1.length = h.length := by
  unfold sp_copy
  cases p with
  | none => rfl
  | some a => cases hb : blockAt h a <;> simp [hb]

theorem length_release (h : Heap T) (p : SharedPtr) : (sp_release h p).length = h.length := by
  unfold sp_release
  cases p with
  | none => rfl
  | some a =>
    cases hb : blockAt h a with
    | none => simp [hb]
    | some b => by_cases h1 : b.strong ≤ 1 <;> simp [hb, h1]

theorem construct_snd [Inhabited T] (h : Heap T) (p : SharedPtr) :
    (COWBase.construct h p).2 = some h.length := rfl

theorem construct_none [Inhabited T] (h : Heap T) :
    COWBase.construct h none = (h ++ [some { value := default, strong := 1 }], some h.length) :=
  rfl

theorem blockAt_construct [Inhabited T] (h : Heap T) (a : Nat) (b : Block T)
    (hb : blockAt h a = some b) (y : Nat) :
    blockAt (COWBase.construct h (some a)).1 y =
      if y = h.length then some { value := default, strong := 1 }
      else if y = a then
        (if b.strong ≤ 1 then none else some { b with strong := b.strong - 1 })
      else blockAt h y := by
  have ha : a < h.length := blockAt_lt hb
  have hne : a ≠ h.length := by omega
  simp only [COWBase.construct, make_shared, sp_move_assign, blockAt_release, blockAt_append]
  by_cases hy : y = a
  · subst hy
    simp [hne, hb]
  · simp [hy]

theorem clone_if_needed_idle [Inhabited T] (h : Heap T) (p : SharedPtr)
    (hp : sp_use_count h p ≤ 1) : COWBase.clone_if_needed h p = (h, p) := by
  unfold COWBase.clone_if_needed
  rw [if_neg (by omega)]

theorem clone_if_needed_snd [Inhabited T] (h : Heap T) (p : SharedPtr)
    (hp : 1 < sp_use_count h p) : (COWBase.clone_if_needed h p).2 = some h.length := by
  unfold COWBase.clone_if_needed
  rw [if_pos hp]
  simp only [construct_snd, length_copy]

theorem blockAt_clone_if_needed [Inhabited T] (h : Heap T) (a : Nat) (b : Block T)
    (hb : blockAt h a = some b) (hn : 1 < b.strong) (y : Nat) :
    blockAt (COWBase.clone_if_needed h (some a)).1 y =
      if y = h.length then some { value := b.value, strong := 1 }
      else if y = a then some { b with strong := b.strong - 1 }
      else blockAt h y := by
  have ha : a < h.length := blockAt_lt hb
  have hne : a ≠ h.length := by omega
  have hne2 : h.length ≠ a := by omega
  have huc : 1 < sp_use_count h (some a) := by simp [sp_use_count, hb, hn]
  have hc : ∀ z, blockAt (sp_copy h (some a)).1 z =
      if z = a then some { b with strong := b.strong + 1 } else blockAt h z := by
    intro z
    rw [blockAt_copy]
    simp [hb]
  have hc2 : (sp_copy h (some a)).2 = some a := by
    simp [sp_copy, hb]
  have hk : ∀ z, blockAt (COWBase.construct (sp_copy h (some a)).1 (some a)).1 z =
      if z = h.length then some { value := default, strong := 1 }
      else if z = a then some b
      else blockAt h z := by
    intro z
    rw [blockAt_construct _ a { b with strong := b.strong + 1 } (by simp [hc]), length_copy]
    by_cases hz : z = a
    · subst hz
      simp [hne]
      omega
    · simp [hz, hc]
  unfold COWBase.clone_if_needed
  rw [if_pos huc]
  simp only [hc2, construct_snd, length_copy, sp_deref, hk, hne, if_false, if_true,
    Option.map_some', blockAt_release, blockAt_store, hne2]
  by_cases hy : y = a
  · subst hy
    simp [hne]
    omega
  · by_cases hy2 : y = h.length
    · simp [hy2, hne2]
    · simp [hy, hy2]

end HeapLemmas

/-! ## Cells of a system -/

section CellLemmas

variable {T : Type}

theorem m_ptr_iff (s : Sys T) (i : Nat) (p : SharedPtr) :
    s.m_ptr i = some p ↔ s.cells[i]? = some (Cell.obj p) := by
  unfold Sys.m_ptr
  cases hc : s.cells[i]? with
  | none => simp
  | some c => cases c <;> simp

theorem m_ptr_lt {s : Sys T} {i : Nat} {p : SharedPtr} (h : s.m_ptr i = some p) :
    i < s.cells.length := by
  rw [m_ptr_iff] at h
  by_contra hlt
  rw [List.getElem?_eq_none (by omega)] at h
  cases h

theorem ptr_iff (s : Sys T) (i a : Nat) : s.ptr i = some a ↔ s.m_ptr i = some (some a) := by
  unfold Sys.ptr COWBase.ptr sp_get
  cases s.m_ptr i <;> simp

theorem m_ptr_set (h h2 : Heap T) (cs : List Cell) (i j : Nat) (c : Cell)
    (hi : i < cs.length) :
    Sys.m_ptr { heap := h2, cells := cs.set i c } j =
      if j = i then (match c with | Cell.obj q => some q | Cell.gone => none)
      else Sys.m_ptr { heap := h, cells := cs } j := by
  unfold Sys.m_ptr
  by_cases hj : j = i
  · subst hj
    simp only [if_true]
    rw [List.getElem?_set_self hi]
    cases c <;> rfl
  · simp only [if_neg hj]
    rw [List.getElem?_set_ne (fun e => hj e.symm)]

theorem m_ptr_append (h h2 : Heap T) (cs : List Cell) (j : Nat) (c : Cell) :
    Sys.m_ptr { heap := h2, cells := cs ++ [c] } j =
      if j = cs.length then (match c with | Cell.obj q => some q | Cell.gone => none)
      else Sys.m_ptr { heap := h, cells := cs } j := by
  unfold Sys.m_ptr
  by_cases hj : j = cs.length
  · subst hj
    simp only [if_true]
    rw [List.getElem?_append_right (le_refl _)]
    cases c <;> simp
  · simp only [if_neg hj]
    by_cases hlt : j < cs.length
    · rw [List.getElem?_append_left hlt]
    · have h1 : (cs ++ [c])[j]? = none := List.getElem?_eq_none (by simp; omega)
      have h2 : cs[j]? = none := List.getElem?_eq_none (by omega)
      rw [h1, h2]

theorem use_count_pos {s : Sys T} {i : Nat} (h : 1 ≤ s.use_count i) :
    ∃ a b, s.m_ptr i = some (some a) ∧ blockAt s.heap a = some b ∧
      b.strong = s.use_count i := by
  cases hm : s.m_ptr i with
  | none => simp [Sys.use_count, hm] at h
  | some p =>
    cases p with
    | none => simp [Sys.use_count, COWBase.use_count, sp_use_count, hm] at h
    | some a =>
      cases hb : blockAt s.heap a with
      | none => simp [Sys.use_count, COWBase.use_count, sp_use_count, hm, hb] at h
      | some b =>
        exact ⟨a, b, rfl, hb, by simp [Sys.use_count, COWBase.use_count, sp_use_count, hm, hb]⟩

theorem use_count_of {s : Sys T} {i a : Nat} {b : Block T} (hm : s.m_ptr i = some (some a))
    (hb : blockAt s.heap a = some b) : s.use_count i = b.strong := by
  simp [Sys.use_count, COWBase.use_count, sp_use_count, hm, hb]

theorem read_of {s : Sys T} {i a : Nat} (hm : s.m_ptr i = some (some a)) :
    s.read i = (blockAt s.heap a).map Block.value := by
  simp [Sys.read, COWBase.ptr, sp_get, sp_deref, hm]

theorem copy_of {s : Sys T} {i : Nat} {p : SharedPtr} (hm : s.m_ptr i = some p) :
    s.copy i =
      { heap := (sp_copy s.heap p).1, cells := s.cells ++ [Cell.obj (sp_copy s.heap p).2] } := by
  simp [Sys.copy, hm]

theorem clone_if_needed_of [Inhabited T] {s : Sys T} {i : Nat} {p : SharedPtr}
    (hm : s.m_ptr i = some p) :
    s.clone_if_needed i =
      { heap := (COWBase.clone_if_needed s.heap p).1,
        cells := s.cells.set i (Cell.obj (COWBase.clone_if_needed s.heap p).2) } := by
  simp [Sys.clone_if_needed, hm]

theorem construct_of [Inhabited T] {s : Sys T} {i : Nat} {p : SharedPtr}
    (hm : s.m_ptr i = some p) :
    s.construct i =
      { heap := (COWBase.construct s.heap p).1,
        cells := s.cells.set i (Cell.obj (some s.heap.length)) } := by
  simp [Sys.construct, hm, construct_snd]

theorem destroy_of {s : Sys T} {i : Nat} {p : SharedPtr} (hm : s.m_ptr i = some p) :
    s.destroy i = { heap := sp_release s.heap p, cells := s.cells.set i Cell.gone } := by
  simp [Sys.destroy, hm]

theorem sp_copy_snd (h : Heap T) (p : SharedPtr) : (sp_copy h p).2 = p := by
  unfold sp_copy
  cases p with
  | none => rfl
  | some a => cases hb : blockAt h a <;> simp [hb]

theorem set_same {α : Type} (l : List α) (i : Nat) (x : α) (h : l[i]? = some x) :
    l.set i x = l := by
  apply List.ext_getElem?
  intro j
  by_cases hj : i = j
  · subst hj
    have hi : i < l.length := by
      by_contra hlt
      rw [List.getElem?_eq_none (by omega)] at h
      cases h
    rw [List.getElem?_set_self hi, h]
  · rw [List.getElem?_set_ne hj]

theorem clone_if_needed_same [Inhabited T] (s : Sys T) (i : Nat) (h : s.use_count i ≤ 1) :
    s.clone_if_needed i = s := by
  cases hm : s.m_ptr i with
  | none => simp [Sys.clone_if_needed, hm]
  | some p =>
    have hu : sp_use_count s.heap p ≤ 1 := by
      simpa [Sys.use_count, COWBase.use_count, hm] using h
    rw [clone_if_needed_of hm, clone_if_needed_idle _ _ hu]
    simp only
    rw [set_same _ _ _ ((m_ptr_iff s i p).1 hm)]

/-- What the clone path of `clone_if_needed()` does to the system: object `i`
is rebound to the new allocation `s.heap.length`, which holds the old value
with count 1, and the old allocation loses one reference. -/
theorem clone_if_needed_shared [Inhabited T] (s : Sys T) (i a : Nat) (b : Block T)
    (hm : s.m_ptr i = some (some a)) (hb : blockAt s.heap a = some b) (hn : 1 < b.strong) :
    (∀ j, (s.clone_if_needed i).m_ptr j =
      if j = i then some (some s.heap.length) else s.m_ptr j) ∧
    (∀ y, blockAt (s.clone_if_needed i).heap y =
      if y = s.heap.length then some { value := b.value, strong := 1 }
      else if y = a then some { b with strong := b.strong - 1 }
      else blockAt s.heap y) := by
  have huc : 1 < sp_use_count s.heap (some a) := by simp [sp_use_count, hb, hn]
  constructor
  · intro j
    rw [clone_if_needed_of hm, m_ptr_set s.heap _ _ _ _ _ (m_ptr_lt hm),
      clone_if_needed_snd _ _ huc]
  · intro y
    rw [clone_if_needed_of hm]
    exact blockAt_clone_if_needed s.heap a b hb hn y

/-- What copy construction does to the system: the new object is cell
`s.cells.length`, bound to the allocation of object `i`, whose count went up. -/
theorem copy_shared (s : Sys T) (i a : Nat) (b : Block T)
    (hm : s.m_ptr i = some (some a)) (hb : blockAt s.heap a = some b) :
    (∀ j, (s.copy i).m_ptr j =
      if j = s.cells.length then some (some a) else s.m_ptr j) ∧
    (∀ y, blockAt (s.copy i).heap y =
      if y = a then some { b with strong := b.strong + 1 } else blockAt s.heap y) ∧
    (s.copy i).heap.length = s.heap.length ∧
    (s.copy i).cells.length = s.cells.length + 1 := by
  rw [copy_of hm]
  refine ⟨?_, ?_, ?_, ?_⟩
  · intro j
    rw [m_ptr_append s.heap, sp_copy_snd]
  · intro y
    simp [blockAt_copy, hb]
  · simp [length_copy]
  · simp

/-- What a write through `ptr()` does to the system: only the payload of the
allocation of object `i` changes. -/
theorem write_bound (s : Sys T) (i a : Nat) (b : Block T) (f : T → T)
    (hm : s.m_ptr i = some (some a)) (hb : blockAt s.heap a = some b) :
    (∀ j, (s.write i f).m_ptr j = s.m_ptr j) ∧
    (∀ y, blockAt (s.write i f).heap y =
      if y = a then some { b with value := f b.value } else blockAt s.heap y) ∧
    (s.write i f).heap.length = s.heap.length ∧
    (s.write i f).cells = s.cells := by
  have hw : s.write i f = { s with heap := sp_store s.heap (some a) (f b.value) } := by
    simp [Sys.write, hm, COWBase.ptr, sp_get, sp_deref, hb]
  rw [hw]
  refine ⟨fun j => rfl, ?_, ?_, rfl⟩
  · intro y
    simp [blockAt_store, hb]
  · simp [length_store]

end CellLemmas

/-! ## Exact reference counts -/

section Counting

variable {T : Type}

theorem count_set {α : Type} [DecidableEq α] (l : List α) (i : Nat) (x c y : α)
    (h : l[i]? = some x) :
    (l.set i c).count y + (if x = y then 1 else 0) =
      l.count y + (if c = y then 1 else 0) := by
  induction l generalizing i with
  | nil => simp at h
  | cons hd tl ih =>
    cases i with
    | zero =>
      simp at h
      subst h
      simp [List.count_cons]
      omega
    | succ k =>
      simp at h
      have := ih k h
      simp [List.count_cons]
      omega

theorem count_snoc {α : Type} [DecidableEq α] (l : List α) (c y : α) :
    (l ++ [c]).count y = l.count y + (if c = y then 1 else 0) := by
  simp [List.count_append, List.count_singleton]

theorem sp_use_count_block {h : Heap T} {a : Nat} {b : Block T} (hb : blockAt h a = some b) :
    sp_use_count h (some a) = b.strong := by
  simp [sp_use_count, hb]

theorem sp_use_count_free {h : Heap T} {a : Nat} (hb : blockAt h a = none) :
    sp_use_count h (some a) = 0 := by
  simp [sp_use_count, hb]

theorem holders_pos {s : Sys T} {i a : Nat} (hm : s.m_ptr i = some (some a)) :
    1 ≤ s.holders a := by
  rw [m_ptr_iff] at hm
  have hmem : Cell.obj (some a) ∈ s.cells := List.getElem?_mem hm
  exact List.count_pos_iff.2 hmem

theorem Inv_live {s : Sys T} (hI : s.Inv) {i a : Nat} (hm : s.m_ptr i = some (some a)) :
    ∃ b, blockAt s.heap a = some b ∧ 1 ≤ b.strong ∧ s.holders a = b.strong := by
  have hpos := holders_pos hm
  have hIa := hI a
  cases hb : blockAt s.heap a with
  | none =>
    rw [sp_use_count_free hb] at hIa
    omega
  | some b =>
    rw [sp_use_count_block hb] at hIa
    exact ⟨b, rfl, by omega, hIa⟩

theorem Inv_fresh {s : Sys T} (hI : s.Inv) : s.holders s.heap.length = 0 := by
  rw [hI, sp_use_count_free (blockAt_length _)]

theorem Inv_empty : (Sys.empty : Sys T).Inv := by
  intro a
  simp [Sys.holders, Sys.empty, sp_use_count, blockAt]

theorem Inv_newCell {s : Sys T} (hI : s.Inv) : s.newCell.Inv := by
  intro y
  have := hI y
  simp only [Sys.holders, Sys.newCell, count_snoc] at *
  simpa using this

theorem Inv_construct [Inhabited T] {s : Sys T} (hI : s.Inv) (i : Nat) :
    (s.construct i).Inv := by
  cases hm : s.m_ptr i with
  | none => simpa [Sys.construct, hm] using hI
  | some p =>
    have hx := (m_ptr_iff s i p).1 hm
    have hfresh := Inv_fresh hI
    cases p with
    | none =>
      intro y
      have hc := count_set s.cells i _ (Cell.obj (some s.heap.length)) (Cell.obj (some y)) hx
      have hIy := hI y
      rw [construct_of hm, construct_none]
      simp only [Sys.holders] at *
      by_cases hy : y = s.heap.length
      · subst hy
        rw [sp_use_count_block (b := { value := default, strong := 1 })
          (by simp [blockAt_append])]
        simp at hc
        dsimp only
        omega
      · have hb : blockAt (s.heap ++ [some { value := (default : T), strong := 1 }]) y =
            blockAt s.heap y := by simp [blockAt_append, hy]
        have hu : sp_use_count (s.heap ++ [some { value := (default : T), strong := 1 }])
            (some y) = sp_use_count s.heap (some y) := by
          simp [sp_use_count, hb]
        rw [hu]
        have hne : ¬ (s.heap.length = y) := fun e => hy e.symm
        simp [hne] at hc
        omega
    | some a =>
      obtain ⟨b, hb, hb1, hha⟩ := Inv_live hI hm
      have halt : a < s.heap.length := blockAt_lt hb
      intro y
      have hc := count_set s.cells i _ (Cell.obj (some s.heap.length)) (Cell.obj (some y)) hx
      have hIy := hI y
      have hblk := blockAt_construct s.heap a b hb y
      rw [construct_of hm]
      simp only [Sys.holders] at *
      by_cases hy : y = s.heap.length
      · subst hy
        rw [if_pos rfl] at hblk
        rw [sp_use_count_block hblk]
        have hne : a ≠ s.heap.length := by omega
        simp [hne] at hc
        dsimp only
        omega
      · rw [if_neg hy] at hblk
        have hne : ¬ (s.heap.length = y) := fun e => hy e.symm
        by_cases hya : y = a
        · subst hya
          rw [if_pos rfl] at hblk
          rw [sp_use_count_block hb] at hIy
          simp [hne] at hc
          by_cases hs1 : b.strong ≤ 1
          · rw [if_pos hs1] at hblk
            rw [sp_use_count_free hblk]
            omega
          · rw [if_neg hs1] at hblk
            rw [sp_use_count_block hblk]
            simp only
            omega
        · rw [if_neg hya] at hblk
          have hu : sp_use_count (COWBase.construct s.heap (some a)).1 (some y) =
              sp_use_count s.heap (some y) := by
            simp [sp_use_count, hblk]
          rw [hu]
          have hne2 : ¬ (a = y) := fun e => hya e.symm
          simp [hne, hne2] at hc
          omega

theorem use_count_release (h : Heap T) (p : SharedPtr) (y : Nat) :
    sp_use_count (sp_release h p) (some y) =
      if p = some y then sp_use_count h (some y) - 1 else sp_use_count h (some y) := by
  cases p with
  | none => simp [sp_release]
  | some a =>
    by_cases hy : y = a
    · subst hy
      cases hb : blockAt h y with
      | none => simp [sp_use_count, sp_release, hb]
      | some b =>
        by_cases h1 : b.strong ≤ 1
        · have : blockAt (sp_release h (some y)) y = none := by
            simp [blockAt_release, hb, h1]
          rw [sp_use_count_free this, sp_use_count_block hb]
          simp
          omega
        · have : blockAt (sp_release h (some y)) y =
              some { b with strong := b.strong - 1 } := by
            simp [blockAt_release, hb, h1]
          rw [sp_use_count_block this, sp_use_count_block hb]
          simp
    · have hne : ¬ (a = y) := fun e => hy e.symm
      have : blockAt (sp_release h (some a)) y = blockAt h y := by
        simp [blockAt_release, hy]
      simp [sp_use_count, this, hne]

theorem use_count_copy (h : Heap T) (a : Nat) (b : Block T) (hb : blockAt h a = some b)
    (y : Nat) :
    sp_use_count (sp_copy h (some a)).1 (some y) =
      if a = y then sp_use_count h (some y) + 1 else sp_use_count h (some y) := by
  by_cases hy : y = a
  · subst hy
    have : blockAt (sp_copy h (some y)).1 y = some { b with strong := b.strong + 1 } := by
      simp [blockAt_copy, hb]
    rw [sp_use_count_block this, sp_use_count_block hb]
    simp
  · have hne : ¬ (a = y) := fun e => hy e.symm
    have : blockAt (sp_copy h (some a)).1 y = blockAt h y := by
      simp [blockAt_copy, hy]
    simp [sp_use_count, this, hne]

theorem use_count_store (h : Heap T) (p : SharedPtr) (v : T) (y : Nat) :
    sp_use_count (sp_store h p v) (some y) = sp_use_count h (some y) := by
  cases p with
  | none => simp [sp_store]
  | some a =>
    by_cases hy : y = a
    · subst hy
      cases hb : blockAt h y with
      | none => simp [sp_use_count, sp_store, hb]
      | some b =>
        have : blockAt (sp_store h (some y) v) y = some { b with value := v } := by
          simp [blockAt_store, hb]
        rw [sp_use_count_block this, sp_use_count_block hb]
    · have : blockAt (sp_store h (some a) v) y = blockAt h y := by
        simp [blockAt_store, hy]
      simp [sp_use_count, this]

theorem Inv_write {s : Sys T} (hI : s.Inv) (i : Nat) (f : T → T) : (s.write i f).Inv := by
  unfold Sys.write
  cases hm : s.m_ptr i with
  | none => simpa using hI
  | some p =>
    cases hd : sp_deref s.heap (COWBase.ptr p) with
    | none => simpa [hd] using hI
    | some v =>
      intro y
      have := hI y
      simp only [hd, Sys.holders, use_count_store] at *
      exact this

theorem Inv_destroy {s : Sys T} (hI : s.Inv) (i : Nat) : (s.destroy i).Inv := by
  cases hm : s.m_ptr i with
  | none => simpa [Sys.destroy, hm] using hI
  | some p =>
    have hx := (m_ptr_iff s i p).1 hm
    intro y
    have hc := count_set s.cells i _ Cell.gone (Cell.obj (some y)) hx
    have hIy := hI y
    rw [destroy_of hm]
    simp only [Sys.holders, use_count_release] at *
    by_cases hp : p = some y
    · subst hp
      simp at hc
      simp
      omega
    · simp [hp] at hc
      simp [hp]
      omega

theorem Inv_copy {s : Sys T} (hI : s.Inv) (i : Nat) : (s.copy i).Inv := by
  cases hm : s.m_ptr i with
  | none => simpa [Sys.copy, hm] using hI
  | some p =>
    intro y
    have hIy := hI y
    rw [copy_of hm, sp_copy_snd]
    cases p with
    | none =>
      simp only [Sys.holders, count_snoc, sp_copy] at *
      simpa using hIy
    | some a =>
      obtain ⟨b, hb, -, -⟩ := Inv_live hI hm
      simp only [Sys.holders, count_snoc, use_count_copy _ _ _ hb] at *
      by_cases hy : a = y
      · subst hy
        simp
        omega
      · simp [hy]
        omega

theorem Inv_assign {s : Sys T} (hI : s.Inv) (i j : Nat) : (s.assign i j).Inv := by
  unfold Sys.assign
  cases hmi : s.m_ptr i with
  | none => simpa using hI
  | some p =>
    cases hmj : s.m_ptr j with
    | none => simpa using hI
    | some q =>
      have hx := (m_ptr_iff s i p).1 hmi
      intro y
      have hc := count_set s.cells i _ (Cell.obj q) (Cell.obj (some y)) hx
      have hIy := hI y
      simp only [Sys.holders, use_count_release, sp_copy_snd] at *
      cases q with
      | none =>
        simp only [sp_copy]
        by_cases hp : p = some y
        · subst hp
          simp at hc
          simp
          omega
        · simp [hp] at hc
          simp [hp]
          omega
      | some c =>
        obtain ⟨b, hb, -, -⟩ := Inv_live hI hmj
        rw [use_count_copy _ _ _ hb]
        by_cases hp : p = some y <;> by_cases hq : c = y
        · subst hp
          simp [hq] at hc
          simp [hq]
          omega
        · subst hp
          simp [hq] at hc
          simp [hq]
          omega
        · simp [hp, hq] at hc
          simp [hp, hq]
          omega
        · simp [hp, hq] at hc
          simp [hp, hq]
          omega

theorem Inv_clone_if_needed [Inhabited T] {s : Sys T} (hI : s.Inv) (i : Nat) :
    (s.clone_if_needed i).Inv := by
  by_cases hone : s.use_count i ≤ 1
  · rw [clone_if_needed_same s i hone]
    exact hI
  · obtain ⟨a, b, hm, hb, hs⟩ := use_count_pos (s := s) (i := i) (by omega)
    have hlt : 1 < b.strong := by omega
    have halt : a < s.heap.length := blockAt_lt hb
    have hx := (m_ptr_iff s i _).1 hm
    have hfresh := Inv_fresh hI
    have hblk := (clone_if_needed_shared s i a b hm hb hlt).2
    have huc : 1 < sp_use_count s.heap (some a) := by simp [sp_use_count, hb, hlt]
    have hcells : (s.clone_if_needed i).cells =
        s.cells.set i (Cell.obj (some s.heap.length)) := by
      rw [clone_if_needed_of hm, clone_if_needed_snd _ _ huc]
    intro y
    have hc := count_set s.cells i _ (Cell.obj (some s.heap.length)) (Cell.obj (some y)) hx
    have hIy := hI y
    have hby := hblk y
    simp only [Sys.holders, hcells] at *
    by_cases hy : y = s.heap.length
    · subst hy
      rw [if_pos rfl] at hby
      rw [sp_use_count_block hby]
      have hne : a ≠ s.heap.length := by omega
      simp [hne] at hc
      dsimp only
      omega
    · rw [if_neg hy] at hby
      have hne : ¬ (s.heap.length = y) := fun e => hy e.symm
      by_cases hya : y = a
      · subst hya
        rw [if_pos rfl] at hby
        rw [sp_use_count_block hb] at hIy
        rw [sp_use_count_block hby]
        simp [hne] at hc
        dsimp only
        omega
      · rw [if_neg hya] at hby
        have hu : sp_use_count (s.clone_if_needed i).heap (some y) =
            sp_use_count s.heap (some y) := by
          simp [sp_use_count, hby]
        rw [hu]
        have hne2 : ¬ (a = y) := fun e => hya e.symm
        simp [hne, hne2] at hc
        omega

theorem Inv_step [Inhabited T] {s : Sys T} (hI : s.Inv) (op : Sys.Op T) : (s.step op).Inv := by
  cases op with
  | newCell => exact Inv_newCell hI
  | construct i => exact Inv_construct hI i
  | clone_if_needed i => exact Inv_clone_if_needed hI i
  | write i f => exact Inv_write hI i f
  | copy i => exact Inv_copy hI i
  | assign i j => exact Inv_assign hI i j
  | destroy i => exact Inv_destroy hI i

theorem Inv_foldl [Inhabited T] (ops : List (Sys.Op T)) (s : Sys T) (hI : s.Inv) :
    (ops.foldl Sys.step s).Inv := by
  induction ops generalizing s with
  | nil => exact hI
  | cons op rest ih => exact ih _ (Inv_step hI op)

/-- Every system reached from the empty one has exact reference counts. -/
theorem Inv_run [Inhabited T] (ops : List (Sys.Op T)) : (Sys.run ops).Inv :=
  Inv_foldl ops _ Inv_empty

theorem Inv_textbox_step {s : Sys TextBoxImpl} (hI : s.Inv) (op : TextBox.Op) :
    (TextBox.step s op).Inv := by
  cases op with
  | new => exact Inv_construct (Inv_newCell hI) _
  | create t c => exact Inv_write (Inv_write (Inv_construct (Inv_newCell hI) _) _ _) _ _
  | copy i => exact Inv_copy hI i
  | assign i j => exact Inv_assign hI i j
  | setColor i c => exact Inv_write (Inv_clone_if_needed hI i) _ _
  | setTitle i t => exact Inv_write (Inv_clone_if_needed hI i) _ _
  | destroy i => exact Inv_destroy hI i

theorem Inv_textbox_foldl (ops : List TextBox.Op) (s : Sys TextBoxImpl) (hI : s.Inv) :
    (ops.foldl TextBox.step s).Inv := by
  induction ops generalizing s with
  | nil => exact hI
  | cons op rest ih => exact ih _ (Inv_textbox_step hI op)

/-- Every system of `TextBox` objects built by a program has exact reference
counts. -/
theorem Inv_textbox_run (ops : List TextBox.Op) : (TextBox.run ops).Inv :=
  Inv_textbox_foldl ops _ Inv_empty

theorem two_holders {s : Sys T} {i j a : Nat} (hij : i ≠ j)
    (hi : s.m_ptr i = some (some a)) (hj : s.m_ptr j = some (some a)) :
    2 ≤ s.holders a := by
  have hx := (m_ptr_iff s i _).1 hi
  have hc := count_set s.cells i _ Cell.gone (Cell.obj (some a)) hx
  have hj2 : Sys.m_ptr { heap := s.heap, cells := s.cells.set i Cell.gone } j =
      some (some a) := by
    rw [m_ptr_set s.heap _ _ _ _ _ (m_ptr_lt hi), if_neg (fun e => hij e.symm)]
    exact hj
  have hpos := holders_pos hj2
  simp only [Sys.holders] at *
  simp at hc
  omega

theorem read_congr {s s2 : Sys T} {j : Nat} (hm : s2.m_ptr j = s.m_ptr j)
    (hb : ∀ y, s.m_ptr j = some (some y) →
      (blockAt s2.heap y).map Block.value = (blockAt s.heap y).map Block.value) :
    s2.read j = s.read j := by
  unfold Sys.read
  rw [hm]
  cases hp : s.m_ptr j with
  | none => rfl
  | some p =>
    cases p with
    | none => rfl
    | some y => simpa [COWBase.ptr, sp_get, sp_deref] using hb y hp

/-- A mutator (`clone_if_needed()` followed by a write through `ptr()`) on object
`i` does not change what any other object reads. -/
theorem mutator_frame [Inhabited T] {s : Sys T} (hI : s.Inv) (i j : Nat) (f : T → T)
    (hij : i ≠ j) : ((s.clone_if_needed i).write i f).read j = s.read j := by
  cases hm : s.m_ptr i with
  | none => simp [Sys.clone_if_needed, Sys.write, hm]
  | some p =>
    cases p with
    | none =>
      have hc : s.clone_if_needed i = s :=
        clone_if_needed_same s i (by simp [Sys.use_count, COWBase.use_count, sp_use_count, hm])
      rw [hc]
      simp [Sys.write, hm, COWBase.ptr, sp_get, sp_deref]
    | some a =>
      obtain ⟨b, hb, hb1, hha⟩ := Inv_live hI hm
      have halt : a < s.heap.length := blockAt_lt hb
      by_cases hone : b.strong ≤ 1
      · have hc : s.clone_if_needed i = s :=
          clone_if_needed_same s i (by rw [use_count_of hm hb]; exact hone)
        rw [hc]
        obtain ⟨wptr, wblk, -, -⟩ := write_bound s i a b f hm hb
        apply read_congr (wptr j)
        intro y hy
        have hya : y ≠ a := by
          intro e
          subst e
          have := two_holders hij hm hy
          omega
        rw [wblk y, if_neg hya]
      · have hlt : 1 < b.strong := by omega
        obtain ⟨kptr, kblk⟩ := clone_if_needed_shared s i a b hm hb hlt
        have kmi := kptr i
        rw [if_pos rfl] at kmi
        have kbn := kblk s.heap.length
        rw [if_pos rfl] at kbn
        obtain ⟨wptr, wblk, -, -⟩ := write_bound _ i s.heap.length _ f kmi kbn
        have hmj : ((s.clone_if_needed i).write i f).m_ptr j = s.m_ptr j := by
          rw [wptr j, kptr j, if_neg (fun e => hij e.symm)]
        apply read_congr hmj
        intro y hy
        have hyn : y ≠ s.heap.length := by
          intro e
          subst e
          have h1 := holders_pos hy
          have h2 := Inv_fresh hI
          omega
        rw [wblk y, if_neg hyn, kblk y, if_neg hyn]
        by_cases hya : y = a
        · subst hya
          rw [if_pos rfl, hb]
          rfl
        · rw [if_neg hya]

theorem construct_m_ptr [Inhabited T] {s : Sys T} {i : Nat} {p : SharedPtr}
    (hm : s.m_ptr i = some p) (j : Nat) :
    (s.construct i).m_ptr j = if j = i then some (some s.heap.length) else s.m_ptr j := by
  rw [construct_of hm, m_ptr_set s.heap _ _ _ _ _ (m_ptr_lt hm)]

theorem destroy_m_ptr {s : Sys T} {i : Nat} {p : SharedPtr}
    (hm : s.m_ptr i = some p) (j : Nat) :
    (s.destroy i).m_ptr j = if j = i then none else s.m_ptr j := by
  rw [destroy_of hm, m_ptr_set s.heap _ _ _ _ _ (m_ptr_lt hm)]

end Counting

/-! ## Sharing on copy -/

section Claims

variable {T : Type}

/-- C3 (P1, sharing): when object `i` is initialised with use count 1, after
copy-constructing a new object from it (the new object is cell
`s.cells.length`) `use_count()` is 2 on both, `ptr()` of both is the same
allocation, and both read the value object `i` held before the copy. -/
theorem copy_shares_allocation (s : Sys T) (i a : Nat) (hp : s.ptr i = some a)
    (hc : s.use_count i = 1) :
    (s.copy i).cells.length = s.cells.length + 1 ∧
    (s.copy i).use_count i = 2 ∧ (s.copy i).use_count s.cells.length = 2 ∧
    (s.copy i).ptr i = some a ∧ (s.copy i).ptr s.cells.length = some a ∧
    ∃ v, s.read i = some v ∧ (s.copy i).read i = some v ∧
      (s.copy i).read s.cells.length = some v := by
  obtain ⟨a2, b, hm, hb, hs⟩ := use_count_pos (le_of_eq hc.symm)
  have ha : a2 = a := by
    rw [ptr_iff, hm] at hp
    simpa using hp
  subst ha
  have hi : i < s.cells.length := m_ptr_lt hm
  have hne : i ≠ s.cells.length := by omega
  have hmi : (s.copy i).m_ptr i = some (some a2) := by
    rw [copy_of hm, m_ptr_append s.heap, if_neg hne]
    exact hm
  have hmj : (s.copy i).m_ptr s.cells.length = some (some a2) := by
    rw [copy_of hm, m_ptr_append s.heap, if_pos rfl, sp_copy_snd]
  have hb2 : blockAt (s.copy i).heap a2 = some { b with strong := b.strong + 1 } := by
    rw [copy_of hm]
    simp [blockAt_copy, hb]
  have hs1 : b.strong = 1 := by omega
  refine ⟨?_, ?_, ?_, ?_, ?_, b.value, ?_, ?_, ?_⟩
  · rw [copy_of hm]
    simp
  · rw [use_count_of hmi hb2]
    simp [hs1]
  · rw [use_count_of hmj hb2]
    simp [hs1]
  · rw [ptr_iff]
    exact hmi
  · rw [ptr_iff]
    exact hmj
  · rw [read_of hm, hb]
    rfl
  · rw [read_of hmi, hb2]
    rfl
  · rw [read_of hmj, hb2]
    rfl

/-- C4: on an initialised object, whatever its use count `n ≥ 1` before the
call, `use_count()` is 1 after `clone_if_needed()`. -/
theorem clone_if_needed_use_count [Inhabited T] (s : Sys T) (i n : Nat)
    (hn : s.use_count i = n) (h1 : 1 ≤ n) :
    (s.clone_if_needed i).use_count i = 1 := by
  subst hn
  obtain ⟨a, b, hm, hb, hs⟩ := use_count_pos h1
  by_cases hone : s.use_count i ≤ 1
  · rw [clone_if_needed_same s i hone]
    omega
  · have hlt : 1 < b.strong := by omega
    obtain ⟨hptr, hblk⟩ := clone_if_needed_shared s i a b hm hb hlt
    have hmi := hptr i
    rw [if_pos rfl] at hmi
    have hbi := hblk s.heap.length
    rw [if_pos rfl] at hbi
    rw [use_count_of hmi hbi]

/-- C5 (P4, value equivalence after clone): whatever value `v` an initialised
object holds, it reads the same `v` after `clone_if_needed()`, on the clone path
and on the no-op path alike. -/
theorem clone_if_needed_read [Inhabited T] (s : Sys T) (i : Nat) (v : T)
    (hv : s.read i = some v) :
    (s.clone_if_needed i).read i = some v := by
  by_cases hone : s.use_count i ≤ 1
  · rw [clone_if_needed_same s i hone]
    exact hv
  · obtain ⟨a, b, hm, hb, hs⟩ := use_count_pos (s := s) (i := i) (by omega)
    have hlt : 1 < b.strong := by omega
    obtain ⟨hptr, hblk⟩ := clone_if_needed_shared s i a b hm hb hlt
    have hmi := hptr i
    rw [if_pos rfl] at hmi
    have hbi := hblk s.heap.length
    rw [if_pos rfl] at hbi
    rw [read_of hm, hb] at hv
    rw [read_of hmi, hbi]
    simpa using hv

/-- C6 (P3, no unnecessary clone): on an object with `use_count() == 1`,
`clone_if_needed()` leaves the whole system as it was; in particular `ptr()`
returns the same address, the value read is the same, and the free store has the
same allocations. -/
theorem clone_if_needed_exclusive [Inhabited T] (s : Sys T) (i : Nat)
    (h1 : s.use_count i = 1) :
    s.clone_if_needed i = s ∧
    (s.clone_if_needed i).ptr i = s.ptr i ∧
    (s.clone_if_needed i).read i = s.read i ∧
    (s.clone_if_needed i).heap = s.heap := by
  rw [clone_if_needed_same s i (le_of_eq h1)]
  exact ⟨rfl, rfl, rfl, rfl⟩

/-- C7: when `clone_if_needed()` is called on an object whose allocation `a` has
use count `n > 1`, the object is rebound to an allocation that did not exist
before and differs from `a`; every other holder of `a` keeps its binding and
its value, and its `use_count()` becomes `n - 1 ≥ 1`, so `a` is still alive. -/
theorem clone_if_needed_other_holders [Inhabited T] (s : Sys T) (i a n : Nat)
    (hp : s.ptr i = some a) (hn : s.use_count i = n) (h1 : 1 < n) :
    (s.clone_if_needed i).ptr i = some s.heap.length ∧
    s.heap.length ≠ a ∧ blockAt s.heap s.heap.length = none ∧
    (blockAt (s.clone_if_needed i).heap a).isSome = true ∧ 1 ≤ n - 1 ∧
    ∀ j, j ≠ i → s.ptr j = some a →
      (s.clone_if_needed i).ptr j = some a ∧
      (∃ v, s.read j = some v ∧ (s.clone_if_needed i).read j = some v) ∧
      (s.clone_if_needed i).use_count j = n - 1 := by
  subst hn
  obtain ⟨a2, b, hm, hb, hs⟩ := use_count_pos (s := s) (i := i) (by omega)
  have ha : a2 = a := by
    rw [ptr_iff, hm] at hp
    simpa using hp
  subst ha
  have hlt : 1 < b.strong := by omega
  have halt : a2 < s.heap.length := blockAt_lt hb
  have hne : a2 ≠ s.heap.length := by omega
  obtain ⟨hptr, hblk⟩ := clone_if_needed_shared s i a2 b hm hb hlt
  have hba := hblk a2
  rw [if_neg hne, if_pos rfl] at hba
  refine ⟨?_, fun e => hne e.symm, blockAt_length _, ?_, by omega, ?_⟩
  · rw [ptr_iff, hptr i, if_pos rfl]
  · rw [hba]
    rfl
  · intro j hj hpj
    rw [ptr_iff] at hpj
    have hmj := hptr j
    rw [if_neg hj, hpj] at hmj
    refine ⟨?_, ⟨b.value, ?_, ?_⟩, ?_⟩
    · rw [ptr_iff]
      exact hmj
    · rw [read_of hpj, hb]
      rfl
    · rw [read_of hmj, hba]
      rfl
    · rw [use_count_of hmj hba, ← hs]

/-- C2 (P2, copy-on-write isolation): let object `i` have use count 1 and let
a new object (cell `s.cells.length`) be copy-constructed from it.  A mutator on
the copy that runs `clone_if_needed()` and then writes `f` through `ptr()`
leaves the value of object `i` as it was, the copy reads the written value, and
`use_count()` is 1 on both. -/
theorem copy_on_write_isolation [Inhabited T] (s : Sys T) (i : Nat) (f : T → T)
    (h1 : s.use_count i = 1) :
    ∃ v, s.read i = some v ∧
      ((((s.copy i).clone_if_needed s.cells.length).write s.cells.length f).read i = some v) ∧
      ((((s.copy i).clone_if_needed s.cells.length).write s.cells.length f).read
        s.cells.length = some (f v)) ∧
      ((((s.copy i).clone_if_needed s.cells.length).write s.cells.length f).use_count i = 1) ∧
      ((((s.copy i).clone_if_needed s.cells.length).write s.cells.length f).use_count
        s.cells.length = 1) := by
  obtain ⟨a, b, hm, hb, hs⟩ := use_count_pos (le_of_eq h1.symm)
  have hs1 : b.strong = 1 := by omega
  have hi : i < s.cells.length := m_ptr_lt hm
  have hne : i ≠ s.cells.length := by omega
  have halt : a < s.heap.length := blockAt_lt hb
  have hane : a ≠ s.heap.length := by omega
  -- after the copy
  obtain ⟨cptr, cblk, clen, -⟩ := copy_shared s i a b hm hb
  have cmj := cptr s.cells.length
  rw [if_pos rfl] at cmj
  have cba := cblk a
  rw [if_pos rfl] at cba
  -- after `clone_if_needed` on the copy
  obtain ⟨kptr, kblk⟩ := clone_if_needed_shared (s.copy i) s.cells.length a _ cmj cba
    (by simp [hs1])
  rw [clen] at kptr kblk
  have kmj := kptr s.cells.length
  rw [if_pos rfl] at kmj
  have kmi := kptr i
  rw [if_neg hne, cptr i, if_neg hne] at kmi
  have kbn := kblk s.heap.length
  rw [if_pos rfl] at kbn
  have kba := kblk a
  rw [if_neg hane, if_pos rfl] at kba
  -- after the write
  obtain ⟨wptr, wblk, -, -⟩ := write_bound _ s.cells.length s.heap.length _ f kmj kbn
  have wmi := wptr i
  rw [kmi, hm] at wmi
  have wmj := wptr s.cells.length
  rw [kmj] at wmj
  have wba := wblk a
  rw [if_neg hane, kba] at wba
  have wbn := wblk s.heap.length
  rw [if_pos rfl] at wbn
  refine ⟨b.value, ?_, ?_, ?_, ?_, ?_⟩
  · rw [read_of hm, hb]
    rfl
  · rw [read_of wmi, wba]
    rfl
  · rw [read_of wmj, wbn]
    rfl
  · rw [use_count_of wmi wba]
    simp [hs1]
  · rw [use_count_of wmj wbn]

/-- C1 (value semantics): in every system of `TextBox` objects built by a
finite sequence of constructions, copies, assignments, setter calls and
destructions, `SetColor` or `SetTitle` on object `i` leaves `GetColor` and
`GetTitle` of every other object `j` unchanged. -/
theorem setters_preserve_other_objects (ops : List TextBox.Op) (i j : Nat) (c : Int)
    (t : String) (hij : i ≠ j) :
    TextBox.GetColor (TextBox.SetColor (TextBox.run ops) i c) j =
      TextBox.GetColor (TextBox.run ops) j ∧
    TextBox.GetTitle (TextBox.SetColor (TextBox.run ops) i c) j =
      TextBox.GetTitle (TextBox.run ops) j ∧
    TextBox.GetColor (TextBox.SetTitle (TextBox.run ops) i t) j =
      TextBox.GetColor (TextBox.run ops) j ∧
    TextBox.GetTitle (TextBox.SetTitle (TextBox.run ops) i t) j =
      TextBox.GetTitle (TextBox.run ops) j := by
  have hI := Inv_textbox_run ops
  have hc := mutator_frame hI i j (fun v => { v with m_Color := c }) hij
  have ht := mutator_frame hI i j (fun v => { v with m_Title := t }) hij
  refine ⟨?_, ?_, ?_, ?_⟩ <;>
    simp only [TextBox.GetColor, TextBox.GetTitle, TextBox.SetColor, TextBox.SetTitle, hc, ht]

/-- C8: in a system with exact reference counts, `construct()` on an existing
object (whatever its handle: empty, exclusive or shared) binds it to an
allocation that did not exist before and that no other object refers to; the
payload is the default-constructed `T` and `use_count()` is 1. -/
theorem construct_binds_fresh [Inhabited T] (s : Sys T) (hI : s.Inv) (i : Nat)
    (p : SharedPtr) (hm : s.m_ptr i = some p) :
    (s.construct i).ptr i = some s.heap.length ∧
    blockAt s.heap s.heap.length = none ∧
    (∀ j, j ≠ i → (s.construct i).ptr j ≠ some s.heap.length) ∧
    (s.construct i).read i = some default ∧
    (s.construct i).use_count i = 1 := by
  have hmi := construct_m_ptr hm i
  rw [if_pos rfl] at hmi
  have hblk : blockAt (s.construct i).heap s.heap.length =
      some { value := default, strong := 1 } := by
    rw [construct_of hm]
    cases p with
    | none => simp [construct_none, blockAt_append]
    | some a =>
      obtain ⟨b, hb, -, -⟩ := Inv_live hI hm
      rw [blockAt_construct s.heap a b hb, if_pos rfl]
  refine ⟨?_, blockAt_length _, ?_, ?_, ?_⟩
  · rw [ptr_iff]
    exact hmi
  · intro j hj hpj
    rw [ptr_iff, construct_m_ptr hm j, if_neg hj] at hpj
    have h1 := holders_pos hpj
    have h2 := Inv_fresh hI
    omega
  · rw [read_of hmi, hblk]
    rfl
  · rw [use_count_of hmi hblk]

/-- C9: in a system with exact reference counts, `construct()` on an initialised
object bound to allocation `a` with use count `n` gives up that reference: when
`n > 1` every other holder of `a` keeps its binding and value and its
`use_count()` becomes `n - 1`; when `n = 1` allocation `a` is released and no
object refers to it any more. -/
theorem construct_discards_previous [Inhabited T] (s : Sys T) (hI : s.Inv) (i a n : Nat)
    (hp : s.ptr i = some a) (hn : s.use_count i = n) :
    (1 < n → ∀ j, j ≠ i → s.ptr j = some a →
      (s.construct i).ptr j = some a ∧
      (s.construct i).use_count j = n - 1 ∧
      ∃ v, s.read j = some v ∧ (s.construct i).read j = some v) ∧
    (n = 1 → blockAt (s.construct i).heap a = none ∧
      ∀ j, (s.construct i).ptr j ≠ some a) := by
  subst hn
  rw [ptr_iff] at hp
  obtain ⟨b, hb, -, hha⟩ := Inv_live hI hp
  have hs : s.use_count i = b.strong := use_count_of hp hb
  have halt : a < s.heap.length := blockAt_lt hb
  have hne : a ≠ s.heap.length := by omega
  have hblk : blockAt (s.construct i).heap a =
      if b.strong ≤ 1 then none else some { b with strong := b.strong - 1 } := by
    rw [construct_of hp, blockAt_construct s.heap a b hb, if_neg hne, if_pos rfl]
  constructor
  · intro hlt j hj hpj
    rw [ptr_iff] at hpj
    have hmj := construct_m_ptr hp j
    rw [if_neg hj, hpj] at hmj
    rw [if_neg (by omega)] at hblk
    refine ⟨?_, ?_, b.value, ?_, ?_⟩
    · rw [ptr_iff]
      exact hmj
    · rw [use_count_of hmj hblk, hs]
    · rw [read_of hpj, hb]
      rfl
    · rw [read_of hmj, hblk]
      rfl
  · intro hone
    rw [if_pos (by omega)] at hblk
    refine ⟨hblk, ?_⟩
    intro j hpj
    rw [ptr_iff, construct_m_ptr hp j] at hpj
    by_cases hj : j = i
    · rw [if_pos hj] at hpj
      simp at hpj
      omega
    · rw [if_neg hj] at hpj
      have := two_holders (fun e => hj e.symm) hp hpj
      omega

/-- C10 (P5, lifecycle): in a system with exact reference counts, destroying an
object bound to allocation `a` with use count `n`: when `n > 1` every remaining
holder of `a` keeps its binding and value and its `use_count()` becomes `n - 1`;
when `n = 1` allocation `a` is released and no object refers to it any more. -/
theorem destroy_releases (s : Sys T) (hI : s.Inv) (i a n : Nat)
    (hp : s.ptr i = some a) (hn : s.use_count i = n) :
    (1 < n → ∀ j, j ≠ i → s.ptr j = some a →
      (s.destroy i).ptr j = some a ∧
      (s.destroy i).use_count j = n - 1 ∧
      ∃ v, s.read j = some v ∧ (s.destroy i).read j = some v) ∧
    (n = 1 → blockAt (s.destroy i).heap a = none ∧
      ∀ j, (s.destroy i).ptr j ≠ some a) := by
  subst hn
  rw [ptr_iff] at hp
  obtain ⟨b, hb, -, hha⟩ := Inv_live hI hp
  have hs : s.use_count i = b.strong := use_count_of hp hb
  have hblk : blockAt (s.destroy i).heap a =
      if b.strong ≤ 1 then none else some { b with strong := b.strong - 1 } := by
    rw [destroy_of hp, blockAt_release, if_pos rfl, hb]
    rfl
  constructor
  · intro hlt j hj hpj
    rw [ptr_iff] at hpj
    have hmj := destroy_m_ptr hp j
    rw [if_neg hj, hpj] at hmj
    rw [if_neg (by omega)] at hblk
    refine ⟨?_, ?_, b.value, ?_, ?_⟩
    · rw [ptr_iff]
      exact hmj
    · rw [use_count_of hmj hblk, hs]
    · rw [read_of hpj, hb]
      rfl
    · rw [read_of hmj, hblk]
      rfl
  · intro hone
    rw [if_pos (by omega)] at hblk
    refine ⟨hblk, ?_⟩
    intro j hpj
    rw [ptr_iff, destroy_m_ptr hp j] at hpj
    by_cases hj : j = i
    · rw [if_pos hj] at hpj
      cases hpj
    · rw [if_neg hj] at hpj
      have := two_holders (fun e => hj e.symm) hp hpj
      omega

end Claims

/-! ## The claims on the objects of `main` -/

section Witnesses

open TextBox

/-- In `main`, setters on `b` leave `a` as it was. -/
theorem setters_preserve_other_objects_witness :
    (1 : Nat) ≠ 0 ∧
    TextBox.GetColor (TextBox.run [Op.create "Hello" 1, Op.copy 0]) 0 = some 1 ∧
    TextBox.GetTitle (TextBox.run [Op.create "Hello" 1, Op.copy 0]) 0 = some "Hello" ∧
    (TextBox.GetColor (TextBox.SetColor (TextBox.run [Op.create "Hello" 1, Op.copy 0]) 1 2) 0 =
      TextBox.GetColor (TextBox.run [Op.create "Hello" 1, Op.copy 0]) 0 ∧
    TextBox.GetTitle (TextBox.SetColor (TextBox.run [Op.create "Hello" 1, Op.copy 0]) 1 2) 0 =
      TextBox.GetTitle (TextBox.run [Op.create "Hello" 1, Op.copy 0]) 0 ∧
    TextBox.GetColor
        (TextBox.SetTitle (TextBox.run [Op.create "Hello" 1, Op.copy 0]) 1 "world") 0 =
      TextBox.GetColor (TextBox.run [Op.create "Hello" 1, Op.copy 0]) 0 ∧
    TextBox.GetTitle
        (TextBox.SetTitle (TextBox.run [Op.create "Hello" 1, Op.copy 0]) 1 "world") 0 =
      TextBox.GetTitle (TextBox.run [Op.create "Hello" 1, Op.copy 0]) 0) :=
  ⟨by decide, by decide, by decide,
    setters_preserve_other_objects [Op.create "Hello" 1, Op.copy 0] 1 0 2 "world" (by decide)⟩

/-- The scenario `A = {"Hello", 1}`, `B = A`, `B.SetColor(2)`: `A.color == 1`,
`B.color == 2`, both counts 1. -/
theorem copy_on_write_isolation_witness :
    demoA.use_count 0 = 1 ∧
    TextBox.GetColor (TextBox.SetColor (demoA.copy 0) 1 2) 0 = some 1 ∧
    TextBox.GetColor (TextBox.SetColor (demoA.copy 0) 1 2) 1 = some 2 ∧
    (∃ v, demoA.read 0 = some v ∧
      (TextBox.SetColor (demoA.copy 0) 1 2).read 0 = some v ∧
      (TextBox.SetColor (demoA.copy 0) 1 2).read 1 = some { v with m_Color := 2 } ∧
      (TextBox.SetColor (demoA.copy 0) 1 2).use_count 0 = 1 ∧
      (TextBox.SetColor (demoA.copy 0) 1 2).use_count 1 = 1) :=
  ⟨by decide, by decide, by decide,
    copy_on_write_isolation demoA 0 (fun v => { v with m_Color := 2 }) (by decide)⟩

/-- In `main`, after `TextBox b = a;` both objects report use count 2 and share
allocation 0. -/
theorem copy_shares_allocation_witness :
    demoA.ptr 0 = some 0 ∧ demoA.use_count 0 = 1 ∧
    ((demoA.copy 0).cells.length = 1 + 1 ∧
    (demoA.copy 0).use_count 0 = 2 ∧ (demoA.copy 0).use_count 1 = 2 ∧
    (demoA.copy 0).ptr 0 = some 0 ∧ (demoA.copy 0).ptr 1 = some 0 ∧
    ∃ v, demoA.read 0 = some v ∧ (demoA.copy 0).read 0 = some v ∧
      (demoA.copy 0).read 1 = some v) :=
  ⟨by decide, by decide, copy_shares_allocation demoA 0 0 (by decide) (by decide)⟩

/-- On the shared `b` of `main` (use count 2), `clone_if_needed()` leaves use
count 1. -/
theorem clone_if_needed_use_count_witness :
    demoAB.use_count 1 = 2 ∧ 1 ≤ 2 ∧ (demoAB.clone_if_needed 1).use_count 1 = 1 :=
  ⟨by decide, by decide, clone_if_needed_use_count demoAB 1 2 (by decide) (by decide)⟩

/-- On the shared `b` of `main`, the value survives `clone_if_needed()`. -/
theorem clone_if_needed_read_witness :
    demoAB.read 1 = some { m_Title := "Hello", m_Color := 1 } ∧
    (demoAB.clone_if_needed 1).read 1 = some { m_Title := "Hello", m_Color := 1 } :=
  ⟨by decide,
    clone_if_needed_read demoAB 1 { m_Title := "Hello", m_Color := 1 } (by decide)⟩

/-- On the exclusive `a` of `main`, `clone_if_needed()` changes nothing. -/
theorem clone_if_needed_exclusive_witness :
    demoA.use_count 0 = 1 ∧
    (demoA.clone_if_needed 0 = demoA ∧
    (demoA.clone_if_needed 0).ptr 0 = demoA.ptr 0 ∧
    (demoA.clone_if_needed 0).read 0 = demoA.read 0 ∧
    (demoA.clone_if_needed 0).heap = demoA.heap) :=
  ⟨by decide, clone_if_needed_exclusive demoA 0 (by decide)⟩

/-- Cloning `b` of `main` away from the allocation it shares with `a`: `a` keeps
allocation 0 and its value, with use count 1. -/
theorem clone_if_needed_other_holders_witness :
    demoAB.ptr 1 = some 0 ∧ demoAB.use_count 1 = 2 ∧ 1 < 2 ∧ demoAB.ptr 0 = some 0 ∧
    (demoAB.clone_if_needed 1).use_count 0 = 1 ∧
    ((demoAB.clone_if_needed 1).ptr 1 = some demoAB.heap.length ∧
    demoAB.heap.length ≠ 0 ∧ blockAt demoAB.heap demoAB.heap.length = none ∧
    (blockAt (demoAB.clone_if_needed 1).heap 0).isSome = true ∧ 1 ≤ 2 - 1 ∧
    ∀ j, j ≠ 1 → demoAB.ptr j = some 0 →
      (demoAB.clone_if_needed 1).ptr j = some 0 ∧
      (∃ v, demoAB.read j = some v ∧ (demoAB.clone_if_needed 1).read j = some v) ∧
      (demoAB.clone_if_needed 1).use_count j = 2 - 1) :=
  ⟨by decide, by decide, by decide, by decide, by decide,
    clone_if_needed_other_holders demoAB 1 0 2 (by decide) (by decide) (by decide)⟩

/-- Calling `construct()` on the shared `b` of `main` binds it to the new
allocation 1, which holds the empty title and colour 0. -/
theorem construct_binds_fresh_witness :
    demoAB.Inv ∧ demoAB.m_ptr 1 = some (some 0) ∧
    (demoAB.construct 1).read 1 = some { m_Title := "", m_Color := 0 } ∧
    ((demoAB.construct 1).ptr 1 = some demoAB.heap.length ∧
    blockAt demoAB.heap demoAB.heap.length = none ∧
    (∀ j, j ≠ 1 → (demoAB.construct 1).ptr j ≠ some demoAB.heap.length) ∧
    (demoAB.construct 1).read 1 = some default ∧
    (demoAB.construct 1).use_count 1 = 1) :=
  ⟨Inv_textbox_run _, by decide, by decide,
    construct_binds_fresh demoAB (Inv_textbox_run _) 1 (some 0) (by decide)⟩

/-- Calling `construct()` on the shared `b` of `main` leaves `a` on allocation 0
with use count 1. -/
theorem construct_discards_previous_witness :
    demoAB.Inv ∧ demoAB.ptr 1 = some 0 ∧ demoAB.use_count 1 = 2 ∧
    (demoAB.construct 1).use_count 0 = 1 ∧
    ((1 < 2 → ∀ j, j ≠ 1 → demoAB.ptr j = some 0 →
      (demoAB.construct 1).ptr j = some 0 ∧
      (demoAB.construct 1).use_count j = 2 - 1 ∧
      ∃ v, demoAB.read j = some v ∧ (demoAB.construct 1).read j = some v) ∧
    (2 = 1 → blockAt (demoAB.construct 1).heap 0 = none ∧
      ∀ j, (demoAB.construct 1).ptr j ≠ some 0)) :=
  ⟨Inv_textbox_run _, by decide, by decide, by decide,
    construct_discards_previous demoAB (Inv_textbox_run _) 1 0 2 (by decide) (by decide)⟩

/-- Destroying the only holder `a` of `demoA` releases allocation 0. -/
theorem destroy_releases_witness :
    demoA.Inv ∧ demoA.ptr 0 = some 0 ∧ demoA.use_count 0 = 1 ∧
    (demoA.destroy 0).heap = [none] ∧
    ((1 < 1 → ∀ j, j ≠ 0 → demoA.ptr j = some 0 →
      (demoA.destroy 0).ptr j = some 0 ∧
      (demoA.destroy 0).use_count j = 1 - 1 ∧
      ∃ v, demoA.read j = some v ∧ (demoA.destroy 0).read j = some v) ∧
    (1 = 1 → blockAt (demoA.destroy 0).heap 0 = none ∧
      ∀ j, (demoA.destroy 0).ptr j ≠ some 0)) :=
  ⟨Inv_textbox_run _, by decide, by decide, by decide,
    destroy_releases demoA (Inv_textbox_run _) 0 0 1 (by decide) (by decide)⟩

end Witnesses

/-! ## Holders of an allocation -/

section Holders

variable {T : Type}

theorem other_holder {s : Sys T} {i a : Nat} (hm : s.m_ptr i = some (some a))
    (h2 : 2 ≤ s.holders a) : ∃ j, j ≠ i ∧ s.m_ptr j = some (some a) := by
  have hx := (m_ptr_iff s i _).1 hm
  have hi : i < s.cells.length := m_ptr_lt hm
  have hc := count_set s.cells i _ Cell.gone (Cell.obj (some a)) hx
  simp only [Sys.holders] at h2
  simp at hc
  have hpos : 0 < List.count (Cell.obj (some a)) (s.cells.set i Cell.gone) := by omega
  obtain ⟨j, hj⟩ := List.mem_iff_getElem?.1 (List.count_pos_iff.1 hpos)
  have hji : j ≠ i := by
    intro e
    subst e
    rw [List.getElem?_set_self hi] at hj
    cases hj
  refine ⟨j, hji, ?_⟩
  rw [List.getElem?_set_ne (fun e => hji e.symm)] at hj
  exact (m_ptr_iff s j _).2 hj

theorem sole_holder {s : Sys T} {i a : Nat} (hm : s.m_ptr i = some (some a))
    (hno : ∀ j, j ≠ i → s.m_ptr j ≠ some (some a)) : s.holders a = 1 := by
  have h1 := holders_pos hm
  by_contra hne
  obtain ⟨j, hji, hj⟩ := other_holder hm (by omega)
  exact hno j hji hj

theorem clone_if_needed_count_one [Inhabited T] {s : Sys T} {i : Nat}
    (h1 : 1 ≤ s.use_count i) : (s.clone_if_needed i).use_count i = 1 := by
  obtain ⟨a, b, hm, hb, hs⟩ := use_count_pos h1
  by_cases hone : s.use_count i ≤ 1
  · rw [clone_if_needed_same s i hone]
    omega
  · have hlt : 1 < b.strong := by omega
    obtain ⟨hptr, hblk⟩ := clone_if_needed_shared s i a b hm hb hlt
    have hmi := hptr i
    rw [if_pos rfl] at hmi
    have hbi := hblk s.heap.length
    rw [if_pos rfl] at hbi
    rw [use_count_of hmi hbi]

theorem clone_if_needed_bound [Inhabited T] {s : Sys T} (hI : s.Inv) {i a : Nat}
    (hp : (s.clone_if_needed i).m_ptr i = some (some a)) : 1 ≤ s.use_count i := by
  by_contra hlt
  have hsame := clone_if_needed_same s i (by omega)
  rw [hsame] at hp
  obtain ⟨b, hb, hb1, -⟩ := Inv_live hI hp
  rw [use_count_of hp hb] at hlt
  omega

theorem read_some {s : Sys T} {i : Nat} {v : T} (hv : s.read i = some v) :
    ∃ a b, s.m_ptr i = some (some a) ∧ blockAt s.heap a = some b ∧ b.value = v := by
  cases hm : s.m_ptr i with
  | none => simp [Sys.read, hm] at hv
  | some p =>
    cases p with
    | none => simp [Sys.read, COWBase.ptr, sp_get, sp_deref, hm] at hv
    | some a =>
      rw [read_of hm] at hv
      cases hb : blockAt s.heap a with
      | none => simp [hb] at hv
      | some b =>
        refine ⟨a, b, rfl, hb, ?_⟩
        simpa [hb] using hv

theorem clone_if_needed_keeps_read [Inhabited T] {s : Sys T} {i : Nat} {v : T}
    (hv : s.read i = some v) : (s.clone_if_needed i).read i = some v := by
  by_cases hone : s.use_count i ≤ 1
  · rw [clone_if_needed_same s i hone]
    exact hv
  · obtain ⟨a, b, hm, hb, hs⟩ := use_count_pos (s := s) (i := i) (by omega)
    have hlt : 1 < b.strong := by omega
    obtain ⟨hptr, hblk⟩ := clone_if_needed_shared s i a b hm hb hlt
    have hmi := hptr i
    rw [if_pos rfl] at hmi
    have hbi := hblk s.heap.length
    rw [if_pos rfl] at hbi
    rw [read_of hm, hb] at hv
    rw [read_of hmi, hbi]
    simpa using hv

theorem write_read {s : Sys T} {i : Nat} {v : T} (f : T → T) (hv : s.read i = some v) :
    (s.write i f).read i = some (f v) ∧ (s.write i f).use_count i = s.use_count i := by
  obtain ⟨a, b, hm, hb, hbv⟩ := read_some hv
  obtain ⟨wptr, wblk, -, -⟩ := write_bound s i a b f hm hb
  have wmi := wptr i
  rw [hm] at wmi
  have wba := wblk a
  rw [if_pos rfl] at wba
  constructor
  · rw [read_of wmi, wba, ← hbv]
    rfl
  · rw [use_count_of wmi wba, use_count_of hm hb]

/-- A mutator (`clone_if_needed()` followed by a write through `ptr()`) on an
initialised object: it reads the written value afterwards. -/
theorem mutator_read [Inhabited T] {s : Sys T} {i : Nat} {v : T} (f : T → T)
    (hv : s.read i = some v) : ((s.clone_if_needed i).write i f).read i = some (f v) :=
  (write_read f (clone_if_needed_keeps_read hv)).1

/-- The state of a new object right after `construct()` in its constructor. -/
theorem newCell_construct [Inhabited T] (s : Sys T) :
    (s.newCell.construct s.cells.length).read s.cells.length = some default ∧
    (s.newCell.construct s.cells.length).use_count s.cells.length = 1 := by
  have hm : s.newCell.m_ptr s.cells.length = some none := by
    unfold Sys.newCell
    rw [m_ptr_append s.heap, if_pos rfl]
  have hmi := construct_m_ptr hm s.cells.length
  rw [if_pos rfl] at hmi
  have hblk : blockAt (s.newCell.construct s.cells.length).heap s.newCell.heap.length =
      some { value := default, strong := 1 } := by
    rw [construct_of hm, construct_none]
    simp [blockAt_append]
  constructor
  · rw [read_of hmi, hblk]
    rfl
  · rw [use_count_of hmi hblk]

end Holders

/-! ## The steps of the clone path -/

section CloneSteps

variable {T : Type}

theorem clone_steps_one [Inhabited T] (h : Heap T) (m : SharedPtr) :
    COWBase.clone_steps h m 1 = ((sp_copy h m).1, m) := rfl

theorem clone_steps_two [Inhabited T] (h : Heap T) (m : SharedPtr) :
    COWBase.clone_steps h m 2 = ((make_shared (sp_copy h m).1).1, m) := rfl

theorem clone_steps_three [Inhabited T] (h : Heap T) (m : SharedPtr) :
    COWBase.clone_steps h m 3 = COWBase.construct (sp_copy h m).1 m := rfl

theorem clone_steps_last [Inhabited T] (h : Heap T) (m : SharedPtr)
    (hu : 1 < sp_use_count h m) :
    COWBase.clone_if_needed h m = COWBase.clone_steps h m 5 := by
  unfold COWBase.clone_if_needed
  rw [if_pos hu]
  rfl

/-- The slots of the free store after each step of the clone path, for an object
bound to allocation `a` with control block `b`. -/
theorem blockAt_clone_steps [Inhabited T] (h : Heap T) (a : Nat) (b : Block T)
    (hb : blockAt h a = some b) (hn : 1 < b.strong) :
    (∀ z, blockAt (COWBase.clone_steps h (some a) 1).1 z =
      if z = a then some { b with strong := b.strong + 1 } else blockAt h z) ∧
    (∀ z, blockAt (COWBase.clone_steps h (some a) 2).1 z =
      if z = h.length then some { value := default, strong := 1 }
      else if z = a then some { b with strong := b.strong + 1 } else blockAt h z) ∧
    (∀ z, blockAt (COWBase.clone_steps h (some a) 3).1 z =
      if z = h.length then some { value := default, strong := 1 }
      else if z = a then some b else blockAt h z) ∧
    (∀ z, blockAt (COWBase.clone_steps h (some a) 4).1 z =
      if z = h.length then some { value := b.value, strong := 1 }
      else if z = a then some b else blockAt h z) := by
  have ha : a < h.length := blockAt_lt hb
  have hne : a ≠ h.length := by omega
  have hne2 : h.length ≠ a := by omega
  have hc : ∀ z, blockAt (sp_copy h (some a)).1 z =
      if z = a then some { b with strong := b.strong + 1 } else blockAt h z := by
    intro z
    rw [blockAt_copy]
    simp [hb]
  have hc2 : (sp_copy h (some a)).2 = some a := sp_copy_snd _ _
  have hk : ∀ z, blockAt (COWBase.construct (sp_copy h (some a)).1 (some a)).1 z =
      if z = h.length then some { value := default, strong := 1 }
      else if z = a then some b
      else blockAt h z := by
    intro z
    rw [blockAt_construct _ a { b with strong := b.strong + 1 } (by simp [hc]), length_copy]
    by_cases hz : z = a
    · subst hz
      simp [hne]
      omega
    · simp [hz, hc]
  refine ⟨?_, ?_, ?_, ?_⟩
  · intro z
    rw [clone_steps_one]
    exact hc z
  · intro z
    rw [clone_steps_two]
    simp only [make_shared, blockAt_append, length_copy, hc]
  · intro z
    rw [clone_steps_three]
    exact hk z
  · intro z
    have h4 : COWBase.clone_steps h (some a) 4 =
        (sp_store (COWBase.construct (sp_copy h (some a)).1 (some a)).1 (some h.length)
          b.value, some h.length) := by
      have hd : sp_deref (COWBase.construct (sp_copy h (some a)).1 (some a)).1 (some a) =
          some b.value := by
        simp [sp_deref, hk, hne]
      have hs : (COWBase.construct (sp_copy h (some a)).1 (some a)).2 = some h.length := by
        rw [construct_snd, length_copy]
      show ((match sp_deref (COWBase.construct (sp_copy h (some a)).1 (some a)).1
            (sp_copy h (some a)).2 with
          | some v => sp_store (COWBase.construct (sp_copy h (some a)).1 (some a)).1
              (COWBase.construct (sp_copy h (some a)).1 (some a)).2 v
          | none => (COWBase.construct (sp_copy h (some a)).1 (some a)).1),
          (COWBase.construct (sp_copy h (some a)).1 (some a)).2) = _
      rw [hc2, hd, hs]
    rw [h4]
    simp only [blockAt_store, hk, if_true]
    by_cases hz : z = h.length
    · simp [hz]
    · simp [hz]

end CloneSteps

/-! ## Bindings across operations -/

section Bindings

variable {T : Type}

theorem write_m_ptr (s : Sys T) (i : Nat) (f : T → T) (j : Nat) :
    (s.write i f).m_ptr j = s.m_ptr j := by
  unfold Sys.write
  cases hm : s.m_ptr i with
  | none => rfl
  | some p =>
    cases hd : sp_deref s.heap (COWBase.ptr p) with
    | none => simp [hd]
    | some v =>
      simp only [hd]
      rfl

theorem clone_if_needed_m_ptr [Inhabited T] (s : Sys T) (i j : Nat) (hij : j ≠ i) :
    (s.clone_if_needed i).m_ptr j = s.m_ptr j := by
  by_cases hone : s.use_count i ≤ 1
  · rw [clone_if_needed_same s i hone]
  · obtain ⟨a, b, hm, hb, hs⟩ := use_count_pos (s := s) (i := i) (by omega)
    rw [(clone_if_needed_shared s i a b hm hb (by omega)).1 j, if_neg hij]

/-- An object bound to an allocation stays bound to one across an operation that
neither destroys it nor assigns over it. -/
theorem bound_step [Inhabited T] {s : Sys T} {i : Nat}
    (hb : ∃ a, s.m_ptr i = some (some a)) (op : Sys.Op T) (he : Sys.Op.ends i op = false) :
    ∃ a, (s.step op).m_ptr i = some (some a) := by
  obtain ⟨a, ha⟩ := hb
  have hi : i < s.cells.length := m_ptr_lt ha
  cases op with
  | newCell =>
    refine ⟨a, ?_⟩
    show s.newCell.m_ptr i = _
    unfold Sys.newCell
    rw [m_ptr_append s.heap, if_neg (by omega)]
    exact ha
  | construct k =>
    show ∃ a, (s.construct k).m_ptr i = some (some a)
    cases hk : s.m_ptr k with
    | none => exact ⟨a, by simpa [Sys.construct, hk] using ha⟩
    | some p =>
      rw [construct_m_ptr hk i]
      by_cases hik : i = k
      · exact ⟨s.heap.length, by rw [if_pos hik]⟩
      · exact ⟨a, by rw [if_neg hik]; exact ha⟩
  | clone_if_needed k =>
    show ∃ a, (s.clone_if_needed k).m_ptr i = some (some a)
    by_cases hik : i = k
    · subst hik
      by_cases hone : s.use_count i ≤ 1
      · rw [clone_if_needed_same s i hone]
        exact ⟨a, ha⟩
      · obtain ⟨a2, b, hm, hb, hs⟩ := use_count_pos (s := s) (i := i) (by omega)
        refine ⟨s.heap.length, ?_⟩
        rw [(clone_if_needed_shared s i a2 b hm hb (by omega)).1 i, if_pos rfl]
    · exact ⟨a, by rw [clone_if_needed_m_ptr s k i hik]; exact ha⟩
  | write k f =>
    exact ⟨a, by show (s.write k f).m_ptr i = _; rw [write_m_ptr]; exact ha⟩
  | copy k =>
    show ∃ a, (s.copy k).m_ptr i = some (some a)
    cases hk : s.m_ptr k with
    | none => exact ⟨a, by simpa [Sys.copy, hk] using ha⟩
    | some p =>
      refine ⟨a, ?_⟩
      rw [copy_of hk, m_ptr_append s.heap, if_neg (by omega)]
      exact ha
  | assign k j =>
    have hki : i ≠ k := by
      intro e
      subst e
      simp [Sys.Op.ends] at he
    show ∃ a, (s.assign k j).m_ptr i = some (some a)
    unfold Sys.assign
    cases hk : s.m_ptr k with
    | none => exact ⟨a, by simpa using ha⟩
    | some p =>
      cases hj : s.m_ptr j with
      | none => exact ⟨a, by simpa using ha⟩
      | some q =>
        refine ⟨a, ?_⟩
        simp only
        rw [m_ptr_set s.heap _ _ _ _ _ (m_ptr_lt hk), if_neg hki]
        exact ha
  | destroy k =>
    have hki : i ≠ k := by
      intro e
      subst e
      simp [Sys.Op.ends] at he
    show ∃ a, (s.destroy k).m_ptr i = some (some a)
    cases hk : s.m_ptr k with
    | none => exact ⟨a, by simpa [Sys.destroy, hk] using ha⟩
    | some p =>
      refine ⟨a, ?_⟩
      rw [destroy_m_ptr hk i, if_neg hki]
      exact ha

theorem bound_foldl [Inhabited T] (ops : List (Sys.Op T)) (s : Sys T) (i : Nat)
    (hI : s.Inv) (hb : ∃ a, s.m_ptr i = some (some a))
    (he : ∀ op ∈ ops, Sys.Op.ends i op = false) :
    (ops.foldl Sys.step s).Inv ∧ ∃ a, (ops.foldl Sys.step s).m_ptr i = some (some a) := by
  induction ops generalizing s with
  | nil => exact ⟨hI, hb⟩
  | cons op rest ih =>
    exact ih (s.step op) (Inv_step hI op)
      (bound_step hb op (he op (List.mem_cons_self _ _)))
      (fun o ho => he o (List.mem_cons_of_mem _ ho))

end Bindings

section Claims2

variable {T : Type}

/-- C11: in every system reached by creating objects, `construct()`, copies,
assignments, `clone_if_needed()`, writes through `ptr()` and destructions, the
`use_count()` of an object bound to allocation `a` is the number of live objects
bound to `a`; it is at least 1, and it is 1 exactly when no other object refers
to `a`. -/
theorem use_count_counts_holders [Inhabited T] (ops : List (Sys.Op T)) (i a : Nat)
    (hp : (Sys.run ops).ptr i = some a) :
    (Sys.run ops).use_count i = (Sys.run ops).holders a ∧
    1 ≤ (Sys.run ops).use_count i ∧
    ((Sys.run ops).use_count i = 1 ↔ ∀ j, j ≠ i → (Sys.run ops).ptr j ≠ some a) := by
  have hI := Inv_run ops
  rw [ptr_iff] at hp
  obtain ⟨b, hb, hb1, hha⟩ := Inv_live hI hp
  have hu : (Sys.run ops).use_count i = b.strong := use_count_of hp hb
  refine ⟨by omega, by omega, ?_, ?_⟩
  · intro h1 j hj hpj
    rw [ptr_iff] at hpj
    have := two_holders (fun e => hj e.symm) hp hpj
    omega
  · intro hno
    have := sole_holder hp (fun j hj e => hno j hj ((ptr_iff _ j a).2 e))
    omega

/-- C12, as the code has it: the mutable `ptr()` is not gated. In a system with
exact reference counts, on an object with `use_count() > 1` it returns an
allocation that another object is bound to as well, and a write through it is
read by that other object. The gate is `clone_if_needed()`: after it, the
allocation `ptr()` returns has use count 1, no other object refers to it, and a
write through it leaves what every other object reads as it was. -/
theorem mutable_ptr_gate [Inhabited T] (s : Sys T) (hI : s.Inv) (i a : Nat) :
    (s.ptr i = some a → 1 < s.use_count i →
      ∃ j, j ≠ i ∧ s.ptr j = some a ∧
        ∃ v, s.read j = some v ∧ ∀ f : T → T, (s.write i f).read j = some (f v)) ∧
    ((s.clone_if_needed i).ptr i = some a →
      (s.clone_if_needed i).use_count i = 1 ∧
      (∀ j, j ≠ i → (s.clone_if_needed i).ptr j ≠ some a) ∧
      ∀ j, j ≠ i → ∀ f : T → T, ((s.clone_if_needed i).write i f).read j = s.read j) := by
  constructor
  · intro hp hlt
    rw [ptr_iff] at hp
    obtain ⟨b, hb, -, hha⟩ := Inv_live hI hp
    rw [use_count_of hp hb] at hlt
    obtain ⟨j, hj, hmj⟩ := other_holder hp (by omega)
    refine ⟨j, hj, (ptr_iff s j a).2 hmj, b.value, ?_, ?_⟩
    · rw [read_of hmj, hb]
      rfl
    · intro f
      obtain ⟨wptr, wblk, -, -⟩ := write_bound s i a b f hp hb
      have wmj := wptr j
      rw [hmj] at wmj
      have wba := wblk a
      rw [if_pos rfl] at wba
      rw [read_of wmj, wba]
      rfl
  · intro hp
    rw [ptr_iff] at hp
    have hI2 := Inv_clone_if_needed hI i
    have hone := clone_if_needed_count_one (clone_if_needed_bound hI hp)
    refine ⟨hone, ?_, ?_⟩
    · intro j hj hpj
      rw [ptr_iff] at hpj
      obtain ⟨b, hb, -, hha⟩ := Inv_live hI2 hp
      rw [use_count_of hp hb] at hone
      have := two_holders (fun e => hj e.symm) hp hpj
      omega
    · intro j hj f
      exact mutator_frame hI i j f (fun e => hj e.symm)

/-- C13: a call of `ptr()` or of `use_count()` leaves the system as it was: no
binding, use count or payload value of any object changes and nothing is
allocated; a second call returns the same address, count and value. -/
theorem observers_are_pure (s : Sys T) (i : Nat) :
    (s.call_ptr i).2 = s ∧ (s.call_use_count i).2 = s ∧
    (∀ j, (s.call_ptr i).2.ptr j = s.ptr j ∧
      (s.call_ptr i).2.use_count j = s.use_count j ∧
      (s.call_ptr i).2.read j = s.read j) ∧
    (∀ j, (s.call_use_count i).2.ptr j = s.ptr j ∧
      (s.call_use_count i).2.use_count j = s.use_count j ∧
      (s.call_use_count i).2.read j = s.read j) ∧
    (s.call_ptr i).2.heap = s.heap ∧ (s.call_use_count i).2.heap = s.heap ∧
    ((s.call_ptr i).2.call_ptr i).1 = (s.call_ptr i).1 ∧
    ((s.call_use_count i).2.call_use_count i).1 = (s.call_use_count i).1 ∧
    (s.call_ptr i).2.read i = s.read i :=
  ⟨rfl, rfl, fun _ => ⟨rfl, rfl, rfl⟩, fun _ => ⟨rfl, rfl, rfl⟩, rfl, rfl, rfl, rfl, rfl⟩

/-- C17: on an object whose handle is empty (`construct()` never called),
`use_count()` is 0, `ptr()` is the null pointer, and `clone_if_needed()` leaves
the whole system as it was: nothing is allocated, the handle stays empty and the
use count stays 0, not 1. -/
theorem empty_handle_behaviour [Inhabited T] (s : Sys T) (i : Nat)
    (hm : s.m_ptr i = some none) :
    s.use_count i = 0 ∧ s.ptr i = none ∧
    s.clone_if_needed i = s ∧
    (s.clone_if_needed i).heap = s.heap ∧
    (s.clone_if_needed i).m_ptr i = some none ∧
    (s.clone_if_needed i).ptr i = none ∧
    (s.clone_if_needed i).use_count i = 0 := by
  have hu : s.use_count i = 0 := by
    simp [Sys.use_count, COWBase.use_count, sp_use_count, hm]
  have hp : s.ptr i = none := by
    simp [Sys.ptr, COWBase.ptr, sp_get, hm]
  have hsame := clone_if_needed_same s i (by omega)
  rw [hsame]
  exact ⟨hu, hp, rfl, rfl, hm, hp, hu⟩

/-- C14 (setter postconditions): on every initialised `TextBox`, shared or not,
holding value `v`: after `SetColor(c)`, `GetColor()` is `c` and `GetTitle()` is
the title of `v`; after `SetTitle(t)`, `GetTitle()` is `t` and `GetColor()` is
the colour of `v`.  `TextBox(t, c)` creates an object with that title and colour
and use count 1.  The four `Display()` calls of `main` print
(1, Hello, 1), (2, Hello, 1), (1, Hello, 2), (1, world, 2). -/
theorem textbox_setter_postconditions (s : Sys TextBoxImpl) (i : Nat) (v : TextBoxImpl)
    (c : Int) (t : String) (hv : s.read i = some v) :
    (TextBox.GetColor (TextBox.SetColor s i c) i = some c ∧
      TextBox.GetTitle (TextBox.SetColor s i c) i = some v.m_Title) ∧
    (TextBox.GetTitle (TextBox.SetTitle s i t) i = some t ∧
      TextBox.GetColor (TextBox.SetTitle s i t) i = some v.m_Color) ∧
    (TextBox.GetTitle (TextBox.create s t c) s.cells.length = some t ∧
      TextBox.GetColor (TextBox.create s t c) s.cells.length = some c ∧
      (TextBox.create s t c).use_count s.cells.length = 1) ∧
    TextBox.mainDisplays =
      [some (1, "Hello", 1), some (2, "Hello", 1), some (1, "Hello", 2),
        some (1, "world", 2)] := by
  have hc := mutator_read (fun w : TextBoxImpl => { w with m_Color := c }) hv
  have ht := mutator_read (fun w : TextBoxImpl => { w with m_Title := t }) hv
  obtain ⟨n1, n2⟩ := newCell_construct s
  have w1 := write_read (fun w : TextBoxImpl => { w with m_Title := t }) n1
  have w2 := write_read (fun w : TextBoxImpl => { w with m_Color := c }) w1.1
  refine ⟨⟨?_, ?_⟩, ⟨?_, ?_⟩, ⟨?_, ?_, ?_⟩, by decide⟩
  · simp only [TextBox.GetColor, TextBox.SetColor, hc, Option.map_some']
  · simp only [TextBox.GetTitle, TextBox.SetColor, hc, Option.map_some']
  · simp only [TextBox.GetTitle, TextBox.SetTitle, ht, Option.map_some']
  · simp only [TextBox.GetColor, TextBox.SetTitle, ht, Option.map_some']
  · simp only [TextBox.GetTitle, TextBox.create, w2.1, Option.map_some']
  · simp only [TextBox.GetColor, TextBox.create, w2.1, Option.map_some']
  · simp only [TextBox.create]
    rw [w2.2, w1.2, n2]

/-- C15, as the code has it: on the clone path of `clone_if_needed()` for an
object bound to allocation `a` with count `n > 1` and value `v`, the steps are
(1) the local `old` takes a reference (count `n + 1`); (2) a new allocation with
a default-constructed payload is made, the object still bound to `a`; (3) the
object is rebound to the new allocation, whose payload is still the default
one, and gives up its own reference (count `n`); (4) `v` is copied into the new
payload; (5) `old` is released (count `n - 1`), which is the result of
`clone_if_needed()`.  Allocation `a` holds `v` after every step. -/
theorem clone_path_order [Inhabited T] (h : Heap T) (a : Nat) (b : Block T)
    (hb : blockAt h a = some b) (hn : 1 < b.strong) :
    ((COWBase.clone_steps h (some a) 1).2 = some a ∧
      sp_use_count (COWBase.clone_steps h (some a) 1).1 (some a) = b.strong + 1) ∧
    ((COWBase.clone_steps h (some a) 2).2 = some a ∧
      blockAt h h.length = none ∧
      blockAt (COWBase.clone_steps h (some a) 2).1 h.length =
        some { value := default, strong := 1 }) ∧
    ((COWBase.clone_steps h (some a) 3).2 = some h.length ∧
      sp_deref (COWBase.clone_steps h (some a) 3).1 (COWBase.clone_steps h (some a) 3).2 =
        some default ∧
      sp_use_count (COWBase.clone_steps h (some a) 3).1 (some a) = b.strong) ∧
    ((COWBase.clone_steps h (some a) 4).2 = some h.length ∧
      sp_deref (COWBase.clone_steps h (some a) 4).1 (COWBase.clone_steps h (some a) 4).2 =
        some b.value ∧
      sp_use_count (COWBase.clone_steps h (some a) 4).1 (some a) = b.strong) ∧
    (COWBase.clone_steps h (some a) 5 = COWBase.clone_if_needed h (some a) ∧
      (COWBase.clone_steps h (some a) 5).2 = some h.length ∧
      sp_deref (COWBase.clone_steps h (some a) 5).1 (COWBase.clone_steps h (some a) 5).2 =
        some b.value ∧
      sp_use_count (COWBase.clone_steps h (some a) 5).1 (some a) = b.strong - 1) ∧
    (∀ k, sp_deref (COWBase.clone_steps h (some a) k).1 (some a) = some b.value) := by
  have ha : a < h.length := blockAt_lt hb
  have hne : a ≠ h.length := by omega
  have hne2 : h.length ≠ a := by omega
  have huc : 1 < sp_use_count h (some a) := by simp [sp_use_count, hb, hn]
  obtain ⟨b1, b2, b3, b4⟩ := blockAt_clone_steps h a b hb hn
  have hlast := clone_steps_last h (some a) huc
  have b5 := blockAt_clone_if_needed h a b hb hn
  rw [hlast] at b5
  have m3 : (COWBase.clone_steps h (some a) 3).2 = some h.length := by
    rw [clone_steps_three, construct_snd, length_copy]
  have m4 : (COWBase.clone_steps h (some a) 4).2 = some h.length := m3
  have m5 : (COWBase.clone_steps h (some a) 5).2 = some h.length := m3
  have a1 := b1 a
  have a2 := b2 a
  have a3 := b3 a
  have a4 := b4 a
  have a5 := b5 a
  rw [if_pos rfl] at a1
  rw [if_neg hne, if_pos rfl] at a2 a3 a4 a5
  have n2 := b2 h.length
  have n3 := b3 h.length
  have n4 := b4 h.length
  have n5 := b5 h.length
  rw [if_pos rfl] at n2 n3 n4 n5
  refine ⟨⟨rfl, ?_⟩, ⟨rfl, blockAt_length h, n2⟩, ⟨m3, ?_, ?_⟩, ⟨m4, ?_, ?_⟩,
    ⟨hlast.symm, m5, ?_, ?_⟩, ?_⟩
  · rw [sp_use_count_block a1]
  · rw [m3]
    simp [sp_deref, n3]
  · rw [sp_use_count_block a3]
  · rw [m4]
    simp [sp_deref, n4]
  · rw [sp_use_count_block a4]
  · rw [m5]
    simp [sp_deref, n5]
  · rw [sp_use_count_block a5]
  · intro k
    rcases k with _ | _ | _ | _ | _ | k
    · show sp_deref h (some a) = some b.value
      simp [sp_deref, hb]
    · simp [sp_deref, a1]
    · simp [sp_deref, a2]
    · simp [sp_deref, a3]
    · simp [sp_deref, a4]
    · have hk : COWBase.clone_steps h (some a) (k + 1 + 1 + 1 + 1 + 1) =
          COWBase.clone_steps h (some a) 5 := rfl
      rw [hk]
      simp [sp_deref, a5]

/-- C16 (initialisation is never lost): in a system with exact reference
counts, once `construct()` has been called on an existing object `i`, after any
sequence of operations on it or on other objects (`construct()`,
`clone_if_needed()`, writes, copies, assignments from it, new objects,
destructions of others) that neither destroys object `i` nor assigns over it,
its handle is non-null and its `use_count()` is at least 1. -/
theorem initialised_stays_initialised [Inhabited T] (s : Sys T) (hI : s.Inv) (i : Nat)
    (p : SharedPtr) (hm : s.m_ptr i = some p) (ops : List (Sys.Op T))
    (he : ∀ op ∈ ops, Sys.Op.ends i op = false) :
    (∃ a, (ops.foldl Sys.step (s.construct i)).ptr i = some a) ∧
    1 ≤ (ops.foldl Sys.step (s.construct i)).use_count i := by
  have h0 : ∃ a, (s.construct i).m_ptr i = some (some a) :=
    ⟨s.heap.length, by rw [construct_m_ptr hm i, if_pos rfl]⟩
  obtain ⟨hI2, a, ha⟩ := bound_foldl ops (s.construct i) i (Inv_construct hI i) h0 he
  obtain ⟨b, hb, hb1, -⟩ := Inv_live hI2 ha
  refine ⟨⟨a, (ptr_iff _ i a).2 ha⟩, ?_⟩
  rw [use_count_of ha hb]
  exact hb1

end Claims2

/-! ## The later claims on the objects of `main` -/

section Witnesses2

open TextBox

/-- Two objects sharing one allocation, built with the operations of `COWBase`:
`use_count()` is the number of holders, 2. -/
theorem use_count_counts_holders_witness :
    (Sys.run ([Sys.Op.newCell, Sys.Op.construct 0, Sys.Op.copy 0] :
      List (Sys.Op TextBoxImpl))).ptr 1 = some 0 ∧
    (Sys.run ([Sys.Op.newCell, Sys.Op.construct 0, Sys.Op.copy 0] :
      List (Sys.Op TextBoxImpl))).use_count 1 = 2 ∧
    ((Sys.run ([Sys.Op.newCell, Sys.Op.construct 0, Sys.Op.copy 0] :
        List (Sys.Op TextBoxImpl))).use_count 1 =
      (Sys.run ([Sys.Op.newCell, Sys.Op.construct 0, Sys.Op.copy 0] :
        List (Sys.Op TextBoxImpl))).holders 0 ∧
    1 ≤ (Sys.run ([Sys.Op.newCell, Sys.Op.construct 0, Sys.Op.copy 0] :
      List (Sys.Op TextBoxImpl))).use_count 1 ∧
    ((Sys.run ([Sys.Op.newCell, Sys.Op.construct 0, Sys.Op.copy 0] :
        List (Sys.Op TextBoxImpl))).use_count 1 = 1 ↔
      ∀ j, j ≠ 1 →
        (Sys.run ([Sys.Op.newCell, Sys.Op.construct 0, Sys.Op.copy 0] :
          List (Sys.Op TextBoxImpl))).ptr j ≠ some 0)) :=
  ⟨by decide, by decide,
    use_count_counts_holders [Sys.Op.newCell, Sys.Op.construct 0, Sys.Op.copy 0] 1 0
      (by decide)⟩

/-- In `main` after `TextBox b = a;`, `b` has use count 2 and its mutable `ptr()`
is the allocation `a` is bound to; a write through it, without
`clone_if_needed()`, changes the colour `a` reads from 1 to 2. -/
theorem mutable_ptr_shared_counterexample :
    1 < demoAB.use_count 1 ∧ demoAB.ptr 1 = some 0 ∧ demoAB.ptr 0 = some 0 ∧
    demoAB.read 0 = some { m_Title := "Hello", m_Color := 1 } ∧
    (demoAB.write 1 (fun v => { v with m_Color := 2 })).read 0 =
      some { m_Title := "Hello", m_Color := 2 } := by
  decide

/-- In `main` after `TextBox b = a;`: `ptr()` of `b` is shared with another
object, which reads whatever is written through it; after `clone_if_needed()`
on `b` its `ptr()` is allocation 1, held by `b` alone, and a write through it
leaves what the other objects read as it was. -/
theorem mutable_ptr_gate_witness :
    demoAB.Inv ∧ demoAB.ptr 1 = some 0 ∧ 1 < demoAB.use_count 1 ∧
    (demoAB.clone_if_needed 1).ptr 1 = some 1 ∧
    (demoAB.write 1 (fun v => { v with m_Color := 2 })).read 0 =
      some { m_Title := "Hello", m_Color := 2 } ∧
    ((demoAB.clone_if_needed 1).write 1 (fun v => { v with m_Color := 2 })).read 0 =
      some { m_Title := "Hello", m_Color := 1 } ∧
    (∃ j, j ≠ 1 ∧ demoAB.ptr j = some 0 ∧
      ∃ v, demoAB.read j = some v ∧
        ∀ f : TextBoxImpl → TextBoxImpl, (demoAB.write 1 f).read j = some (f v)) ∧
    ((demoAB.clone_if_needed 1).use_count 1 = 1 ∧
      (∀ j, j ≠ 1 → (demoAB.clone_if_needed 1).ptr j ≠ some 1) ∧
      ∀ j, j ≠ 1 → ∀ f : TextBoxImpl → TextBoxImpl,
        ((demoAB.clone_if_needed 1).write 1 f).read j = demoAB.read j) :=
  ⟨Inv_textbox_run _, by decide, by decide, by decide, by decide, by decide,
    (mutable_ptr_gate demoAB (Inv_textbox_run _) 1 0).1 (by decide) (by decide),
    (mutable_ptr_gate demoAB (Inv_textbox_run _) 1 1).2 (by decide)⟩

/-- The setters on the shared `b` of `main`. -/
theorem textbox_setter_postconditions_witness :
    demoAB.read 1 = some { m_Title := "Hello", m_Color := 1 } ∧
    ((TextBox.GetColor (TextBox.SetColor demoAB 1 2) 1 = some 2 ∧
      TextBox.GetTitle (TextBox.SetColor demoAB 1 2) 1 = some "Hello") ∧
    (TextBox.GetTitle (TextBox.SetTitle demoAB 1 "world") 1 = some "world" ∧
      TextBox.GetColor (TextBox.SetTitle demoAB 1 "world") 1 = some 1) ∧
    (TextBox.GetTitle (TextBox.create demoAB "world" 2) 2 = some "world" ∧
      TextBox.GetColor (TextBox.create demoAB "world" 2) 2 = some 2 ∧
      (TextBox.create demoAB "world" 2).use_count 2 = 1) ∧
    TextBox.mainDisplays =
      [some (1, "Hello", 1), some (2, "Hello", 1), some (1, "Hello", 2),
        some (1, "world", 2)]) :=
  ⟨by decide,
    textbox_setter_postconditions demoAB 1 { m_Title := "Hello", m_Color := 1 } 2 "world"
      (by decide)⟩

/-- When `b.SetColor(2)` of `main` runs `clone_if_needed()`, after the third
step (`construct()` has returned, `*m_ptr = *old` has not run yet) `b` is
already rebound to allocation 1, whose payload is the default one, not the
value `b` had before the call. -/
theorem clone_rebinds_before_copy_counterexample :
    1 < sp_use_count demoAB.heap (some 0) ∧
    sp_deref demoAB.heap (some 0) = some { m_Title := "Hello", m_Color := 1 } ∧
    (COWBase.clone_steps demoAB.heap (some 0) 3).2 = some 1 ∧
    sp_deref (COWBase.clone_steps demoAB.heap (some 0) 3).1
        (COWBase.clone_steps demoAB.heap (some 0) 3).2 =
      some { m_Title := "", m_Color := 0 } ∧
    sp_deref (COWBase.clone_steps demoAB.heap (some 0) 3).1
        (COWBase.clone_steps demoAB.heap (some 0) 3).2 ≠
      sp_deref demoAB.heap (some 0) := by
  decide

/-- The steps of `clone_if_needed()` inside `b.SetColor(2)` of `main`. -/
theorem clone_path_order_witness :
    blockAt demoAB.heap 0 =
      some { value := { m_Title := "Hello", m_Color := 1 }, strong := 2 } ∧
    sp_use_count (COWBase.clone_steps demoAB.heap (some 0) 1).1 (some 0) = 3 ∧
    ((COWBase.clone_steps demoAB.heap (some 0) 3).2 = some 1 ∧
      sp_deref (COWBase.clone_steps demoAB.heap (some 0) 3).1
          (COWBase.clone_steps demoAB.heap (some 0) 3).2 =
        some { m_Title := "", m_Color := 0 } ∧
      sp_use_count (COWBase.clone_steps demoAB.heap (some 0) 3).1 (some 0) = 2) ∧
    ((COWBase.clone_steps demoAB.heap (some 0) 4).2 = some 1 ∧
      sp_deref (COWBase.clone_steps demoAB.heap (some 0) 4).1
          (COWBase.clone_steps demoAB.heap (some 0) 4).2 =
        some { m_Title := "Hello", m_Color := 1 } ∧
      sp_use_count (COWBase.clone_steps demoAB.heap (some 0) 4).1 (some 0) = 2) ∧
    (COWBase.clone_steps demoAB.heap (some 0) 5 =
        COWBase.clone_if_needed demoAB.heap (some 0) ∧
      (COWBase.clone_steps demoAB.heap (some 0) 5).2 = some 1 ∧
      sp_deref (COWBase.clone_steps demoAB.heap (some 0) 5).1
          (COWBase.clone_steps demoAB.heap (some 0) 5).2 =
        some { m_Title := "Hello", m_Color := 1 } ∧
      sp_use_count (COWBase.clone_steps demoAB.heap (some 0) 5).1 (some 0) = 1) :=
  ⟨by decide,
    (clone_path_order demoAB.heap 0
      { value := { m_Title := "Hello", m_Color := 1 }, strong := 2 }
      (by decide) (by decide)).1.2,
    (clone_path_order demoAB.heap 0
      { value := { m_Title := "Hello", m_Color := 1 }, strong := 2 }
      (by decide) (by decide)).2.2.1,
    (clone_path_order demoAB.heap 0
      { value := { m_Title := "Hello", m_Color := 1 }, strong := 2 }
      (by decide) (by decide)).2.2.2.1,
    (clone_path_order demoAB.heap 0
      { value := { m_Title := "Hello", m_Color := 1 }, strong := 2 }
      (by decide) (by decide)).2.2.2.2.1⟩

/-- After `construct()` on `a` of `main`, copying it, cloning it, destroying the
copy and writing through it leave `a` initialised. -/
theorem initialised_stays_initialised_witness :
    demoA.Inv ∧ demoA.m_ptr 0 = some (some 0) ∧
    (∀ op ∈ ([Sys.Op.copy 0, Sys.Op.clone_if_needed 0, Sys.Op.destroy 1,
        Sys.Op.write 0 (fun v => { v with m_Color := 2 })] : List (Sys.Op TextBoxImpl)),
      Sys.Op.ends 0 op = false) ∧
    ((∃ a, (([Sys.Op.copy 0, Sys.Op.clone_if_needed 0, Sys.Op.destroy 1,
        Sys.Op.write 0 (fun v => { v with m_Color := 2 })] :
        List (Sys.Op TextBoxImpl)).foldl Sys.step (demoA.construct 0)).ptr 0 = some a) ∧
    1 ≤ (([Sys.Op.copy 0, Sys.Op.clone_if_needed 0, Sys.Op.destroy 1,
        Sys.Op.write 0 (fun v => { v with m_Color := 2 })] :
        List (Sys.Op TextBoxImpl)).foldl Sys.step (demoA.construct 0)).use_count 0) :=
  ⟨Inv_textbox_run _, by decide, by decide,
    initialised_stays_initialised demoA (Inv_textbox_run _) 0 (some 0) (by decide)
      [Sys.Op.copy 0, Sys.Op.clone_if_needed 0, Sys.Op.destroy 1,
        Sys.Op.write 0 (fun v => { v with m_Color := 2 })] (by decide)⟩

/-- A new object on which `construct()` has not been called. -/
theorem empty_handle_behaviour_witness :
    (Sys.empty : Sys TextBoxImpl).newCell.m_ptr 0 = some none ∧
    ((Sys.empty : Sys TextBoxImpl).newCell.use_count 0 = 0 ∧
    (Sys.empty : Sys TextBoxImpl).newCell.ptr 0 = none ∧
    (Sys.empty : Sys TextBoxImpl).newCell.clone_if_needed 0 =
      (Sys.empty : Sys TextBoxImpl).newCell ∧
    ((Sys.empty : Sys TextBoxImpl).newCell.clone_if_needed 0).heap =
      (Sys.empty : Sys TextBoxImpl).newCell.heap ∧
    ((Sys.empty : Sys TextBoxImpl).newCell.clone_if_needed 0).m_ptr 0 = some none ∧
    ((Sys.empty : Sys TextBoxImpl).newCell.clone_if_needed 0).ptr 0 = none ∧
    ((Sys.empty : Sys TextBoxImpl).newCell.clone_if_needed 0).use_count 0 = 0) :=
  ⟨by decide, empty_handle_behaviour (Sys.empty : Sys TextBoxImpl).newCell 0 (by decide)⟩

end Witnesses2

end CowBase
